import Mathlib

/-!
Verification of the `syn2mas` migration engine
(`src/tools/syn2mas/src/migrate.mts`).

The development is a shallow embedding of the migration tool:

* JavaScript string primitives used by the source (`String.prototype.split`,
  `substring`, `toLowerCase`, first-match `replace`) are modelled over
  `List Char`;
* the `id128` ULID/UUID codec (a third-party dependency, not part of
  `src/`) is modelled from the spec (section 4.1): Crockford base-32 ULID
  encoding, dashed hexadecimal UUID encoding, raw hexadecimal UUID
  encoding, all over one 128-bit natural number;
* database access is modelled by explicit lists of rows; the run is a
  state-passing function producing the written target rows, the issued
  source-store extraction queries and the warn/fatal/debug logs;
* `process.exit(1)` and thrown exceptions are modelled by an `Except`
  short-circuit carrying the state at the moment of the stop.

Machine integers do not overflow in the modelled code paths (timestamps
and counters), so they are modelled as `Nat`; the 128-bit identifier
arithmetic carries explicit `% 2 ^ 48` / `% 2 ^ 80` reductions exactly
where `id128` truncates.
-/

/-! ### JavaScript string primitives -/

/-- JavaScript `String.prototype.split` with a single-character separator,
on the character list of the string.  `"".split(s)` is `[""]`, matching JS. -/
def jsSplitList (sep : Char) : List Char → List (List Char)
  | [] => [[]]
  | c :: cs =>
    let r := jsSplitList sep cs
    if c = sep then [] :: r else (c :: r.headD []) :: r.tail

/-- JavaScript `String.prototype.split` with a single-character separator. -/
def jsSplit (sep : Char) (s : String) : List String :=
  (jsSplitList sep s.toList).map (fun l => String.mk l)

theorem jsSplitList_ne_nil (sep : Char) (cs : List Char) :
    jsSplitList sep cs ≠ [] := by
  cases cs with
  | nil => simp [jsSplitList]
  | cons c cs =>
    simp only [jsSplitList]
    split <;> simp

theorem jsSplitList_head (sep : Char) (cs : List Char) :
    (jsSplitList sep cs).headD [] = cs.takeWhile (fun c => !(c = sep)) := by
  induction cs with
  | nil => simp [jsSplitList]
  | cons c cs ih =>
    simp only [jsSplitList, List.takeWhile]
    by_cases h : c = sep
    · simp [h]
    · simp only [if_neg h, List.headD_cons, decide_eq_false h, Bool.not_false,
        if_pos]
      simpa using ih

/-- JavaScript `String.prototype.toLowerCase`, modelled per character. -/
def jsToLower (s : String) : String :=
  String.mk (s.toList.map Char.toLower)

/-- `user.name.split(":")[0].substring(1)` from `migrateUser`
(migrate.mts line 197): the username under which a source user is
migrated. -/
def localpart (name : String) : String :=
  String.mk (((jsSplitList ':' name.toList).headD []).drop 1)

/-- C9: the migrated username is the part of the source name before the
first `:`, with its first character removed unconditionally: a name
without a leading `@` still loses its first character, a name without any
`:` uses the whole name minus its first character, and a before-colon
prefix of length at most one yields the empty username. -/
theorem localpart_spec :
    (∀ name : String,
      localpart name =
        String.mk ((name.toList.takeWhile (fun c => !(c = ':'))).drop 1)) ∧
    (∀ name : String, ¬ ':' ∈ name.toList →
      localpart name = String.mk (name.toList.drop 1)) ∧
    (∀ name : String,
      (name.toList.takeWhile (fun c => !(c = ':'))).length ≤ 1 →
      localpart name = "") := by
  refine ⟨?_, ?_, ?_⟩
  · intro name
    rw [localpart, jsSplitList_head]
  · intro name h
    rw [localpart, jsSplitList_head, List.takeWhile_eq_self_iff.mpr]
    intro c hc
    simp only [Bool.not_eq_true']
    exact decide_eq_false (fun he => h (he ▸ hc))
  · intro name h
    rw [localpart, jsSplitList_head, List.drop_eq_nil_of_le h]

theorem localpart_spec_witness :
    localpart "@alice:example.org" = "alice" ∧
    (¬ ':' ∈ "bob".toList → localpart "bob" = String.mk ("bob".toList.drop 1)) ∧
    (("a".toList.takeWhile (fun c => !(c = ':'))).length ≤ 1 →
      localpart "a" = "") := by
  refine ⟨by decide, fun h => ?_, fun h => ?_⟩
  · exact localpart_spec.2.1 "bob" h
  · exact localpart_spec.2.2 "a" h

/-! ### Identifier codec (ULID / UUID duality)

Modelled from the spec: the `id128` library used by `migrate.mts` is a
third-party dependency whose code is not under `src/`.  Section 4.1 of the
spec describes it: a 128-bit value has a lexically sortable canonical
encoding (26 Crockford base-32 characters, ULID) and a UUID-style encoding
(dashed hexadecimal), plus a raw (dash-less) hexadecimal variant. -/

/-- Crockford base-32 alphabet used by the canonical ULID encoding. -/
def crockfordChars : List Char :=
  ['0', '1', '2', '3', '4', '5', '6', '7', '8', '9',
   'A', 'B', 'C', 'D', 'E', 'F', 'G', 'H', 'J', 'K',
   'M', 'N', 'P', 'Q', 'R', 'S', 'T', 'V', 'W', 'X', 'Y', 'Z']

/-- Digit of value `m` (taken mod 32) in the Crockford alphabet. -/
def b32char (m : Nat) : Char := crockfordChars.getD m '0'

/-- Value of a Crockford base-32 digit. -/
def c32val (c : Char) : Nat :=
  match c with
  | '0' => 0 | '1' => 1 | '2' => 2 | '3' => 3 | '4' => 4 | '5' => 5
  | '6' => 6 | '7' => 7 | '8' => 8 | '9' => 9 | 'A' => 10 | 'B' => 11
  | 'C' => 12 | 'D' => 13 | 'E' => 14 | 'F' => 15 | 'G' => 16 | 'H' => 17
  | 'J' => 18 | 'K' => 19 | 'M' => 20 | 'N' => 21 | 'P' => 22 | 'Q' => 23
  | 'R' => 24 | 'S' => 25 | 'T' => 26 | 'V' => 27 | 'W' => 28 | 'X' => 29
  | 'Y' => 30 | 'Z' => 31 | _ => 0

/-- Upper-case hexadecimal alphabet of the canonical UUID encoding. -/
def hexChars : List Char :=
  ['0', '1', '2', '3', '4', '5', '6', '7', '8', '9',
   'A', 'B', 'C', 'D', 'E', 'F']

/-- Hexadecimal digit of value `m` (taken mod 16). -/
def b16char (m : Nat) : Char := hexChars.getD m '0'

/-- Value of a hexadecimal digit. -/
def c16val (c : Char) : Nat :=
  match c with
  | '0' => 0 | '1' => 1 | '2' => 2 | '3' => 3 | '4' => 4 | '5' => 5
  | '6' => 6 | '7' => 7 | '8' => 8 | '9' => 9 | 'A' => 10 | 'B' => 11
  | 'C' => 12 | 'D' => 13 | 'E' => 14 | 'F' => 15 | _ => 0

/-- The `k` base-`b` digits of `n`, most significant first, rendered by
`digit`. -/
def natDigits (b : Nat) (digit : Nat → Char) : Nat → Nat → List Char
  | 0, _ => []
  | k + 1, n => natDigits b digit k (n / b) ++ [digit (n % b)]

/-- Base-`b` value of a digit list, most significant first. -/
def digitsVal (b : Nat) (val : Char → Nat) (cs : List Char) : Nat :=
  cs.foldl (fun a c => a * b + val c) 0

theorem natDigits_length (b : Nat) (digit : Nat → Char) (k n : Nat) :
    (natDigits b digit k n).length = k := by
  induction k generalizing n with
  | zero => rfl
  | succ k ih => simp [natDigits, ih]

theorem digitsVal_append_singleton (b : Nat) (val : Char → Nat)
    (cs : List Char) (c : Char) :
    digitsVal b val (cs ++ [c]) = digitsVal b val cs * b + val c := by
  simp [digitsVal]

theorem digitsVal_natDigits (b : Nat) (digit : Nat → Char) (val : Char → Nat)
    (hb : 1 < b) (hd : ∀ m, m < b → val (digit m) = m) (k n : Nat) :
    digitsVal b val (natDigits b digit k n) = n % b ^ k := by
  induction k generalizing n with
  | zero => simp [natDigits, digitsVal, Nat.mod_one]
  | succ k ih =>
    rw [natDigits, digitsVal_append_singleton, ih,
      hd _ (Nat.mod_lt _ (Nat.lt_of_lt_of_le Nat.zero_lt_one hb.le))]
    have h1 : b ^ (k + 1) = b * b ^ k := by ring
    rw [h1, Nat.mod_mul]
    ring

theorem natDigits_succ_cons (b : Nat) (digit : Nat → Char) (k n : Nat) :
    natDigits b digit (k + 1) n =
      digit (n / b ^ k % b) :: natDigits b digit k n := by
  induction k generalizing n with
  | zero => simp [natDigits]
  | succ k ih =>
    have h1 : natDigits b digit (k + 1 + 1) n =
        natDigits b digit (k + 1) (n / b) ++ [digit (n % b)] := rfl
    rw [h1, ih, natDigits, Nat.div_div_eq_div_mul, ← Nat.pow_succ']
    rfl

theorem natDigits_all (b : Nat) (digit : Nat → Char) (p : Char → Bool)
    (hb : 0 < b) (hd : ∀ m, m < b → p (digit m) = true) (k n : Nat) :
    (natDigits b digit k n).all p = true := by
  induction k generalizing n with
  | zero => rfl
  | succ k ih =>
    rw [natDigits]
    simp [List.all_append, ih, hd _ (Nat.mod_lt _ hb)]

/-- Canonical (sortable) ULID encoding of a 128-bit value: its 26
Crockford base-32 digits, most significant first. -/
def ulidEncode (n : Nat) : String :=
  String.mk (natDigits 32 b32char 26 n)

/-- Raw (dash-less) UUID encoding of a 128-bit value: its 32 upper-case
hexadecimal digits, most significant first. -/
def rawHexEncode (n : Nat) : String :=
  String.mk (natDigits 16 b16char 32 n)

/-- Dash layout of a canonical UUID: 8-4-4-4-12 over 32 hex digits. -/
def insertDashes (cs : List Char) : List Char :=
  cs.take 8 ++ '-' :: ((cs.drop 8).take 4 ++ '-' ::
    ((cs.drop 12).take 4 ++ '-' :: ((cs.drop 16).take 4 ++ '-' :: cs.drop 20)))

/-- Canonical UUID encoding of a 128-bit value. -/
def uuidCanonical (n : Nat) : String :=
  String.mk (insertDashes (natDigits 16 b16char 32 n))

/-- Whether a character is a Crockford base-32 digit. -/
def isCrockford (c : Char) : Bool := crockfordChars.contains c

/-- Whether a character is an upper-case hexadecimal digit. -/
def isHexDigit (c : Char) : Bool := hexChars.contains c

/-- `id128.Ulid.isCanonical`: 26 Crockford digits whose first digit is at
most 7 (so the value fits in 128 bits). -/
def isCanonicalUlid (s : String) : Bool :=
  let cs := s.toList
  cs.length == 26 && cs.all isCrockford &&
    (['0', '1', '2', '3', '4', '5', '6', '7'].contains (cs.headD ' '))

/-- Characters of a string with the dashes removed. -/
def stripDashes (cs : List Char) : List Char :=
  cs.filter (fun c => !(c == '-'))

/-- `id128.Uuid.isCanonical`: the 8-4-4-4-12 dashed form over 32 hex
digits. -/
def isCanonicalUuid (s : String) : Bool :=
  let cs := s.toList
  let hx := stripDashes cs
  cs.length == 36 && hx.length == 32 && hx.all isHexDigit &&
    cs == insertDashes hx

/-- `id128.Uuid.isRaw`: 32 hex digits, no dashes. -/
def isRawUuid (s : String) : Bool :=
  s.toList.length == 32 && s.toList.all isHexDigit

/-- 128-bit value read back from a canonical ULID. -/
def ulidDecode (s : String) : Nat := digitsVal 32 c32val s.toList

/-- 128-bit value read back from a canonical UUID. -/
def uuidDecode (s : String) : Nat := digitsVal 16 c16val (stripDashes s.toList)

/-- 128-bit value read back from a raw UUID. -/
def rawHexDecode (s : String) : Nat := digitsVal 16 c16val s.toList

/-- Both canonical encodings of one 128-bit value, in the order returned
by `parseUuidOrUlid` in migrate.mts (UUID first, ULID second). -/
def idPair (v : Nat) : String × String := (uuidCanonical v, ulidEncode v)

/-- `parseUuidOrUlid` (migrate.mts lines 45-59): tries canonical ULID,
then canonical UUID, then raw UUID; `id128.Uuid.fromRaw` throws on
anything else, modelled by `none`. -/
def parseUuidOrUlid (s : String) : Option (String × String) :=
  if isCanonicalUlid s then some (idPair (ulidDecode s))
  else if isCanonicalUuid s then some (idPair (uuidDecode s))
  else if isRawUuid s then some (idPair (rawHexDecode s))
  else none

/-- `id128.Ulid.generate({time})`: 48-bit millisecond timestamp followed
by 80 random bits, as one 128-bit value. -/
def ulidValue (timeMs rand : Nat) : Nat :=
  timeMs % 2 ^ 48 * 2 ^ 80 + rand % 2 ^ 80

/-- `makeUuid` (migrate.mts lines 115-119): generate a ULID at the given
time and expose it in canonical UUID form.  `rho` is the stream of random
draws and `k` the index of this draw. -/
def makeUuid (rho : Nat → Nat) (k : Nat) (timeMs : Nat) : String :=
  uuidCanonical (ulidValue timeMs (rho k))

theorem ulidValue_lt (timeMs rand : Nat) : ulidValue timeMs rand < 2 ^ 128 := by
  have h1 : timeMs % 2 ^ 48 < 2 ^ 48 := Nat.mod_lt _ (by norm_num)
  have h2 : rand % 2 ^ 80 < 2 ^ 80 := Nat.mod_lt _ (by norm_num)
  calc timeMs % 2 ^ 48 * 2 ^ 80 + rand % 2 ^ 80
      < timeMs % 2 ^ 48 * 2 ^ 80 + 2 ^ 80 := by omega
    _ ≤ (2 ^ 48 - 1) * 2 ^ 80 + 2 ^ 80 := by
        have : timeMs % 2 ^ 48 ≤ 2 ^ 48 - 1 := by omega
        exact Nat.add_le_add_right (Nat.mul_le_mul_right _ this) _
    _ ≤ 2 ^ 128 := by norm_num

theorem toList_mk (l : List Char) : (String.mk l).toList = l := rfl

theorem c32val_b32char : ∀ m, m < 32 → c32val (b32char m) = m := by decide

theorem isCrockford_b32char : ∀ m, m < 32 → isCrockford (b32char m) = true := by
  decide

theorem c16val_b16char : ∀ m, m < 16 → c16val (b16char m) = m := by decide

theorem isHexDigit_b16char : ∀ m, m < 16 → isHexDigit (b16char m) = true := by
  decide

theorem b32char_first_eight :
    ∀ m, m < 8 →
      (['0', '1', '2', '3', '4', '5', '6', '7'].contains (b32char m)) = true := by
  decide

theorem b16char_not_dash : ∀ m, m < 16 → (!(b16char m == '-')) = true := by
  decide

theorem ulidDecode_ulidEncode (n : Nat) (h : n < 2 ^ 128) :
    ulidDecode (ulidEncode n) = n := by
  rw [ulidDecode, ulidEncode, toList_mk,
    digitsVal_natDigits 32 b32char c32val (by norm_num) c32val_b32char]
  exact Nat.mod_eq_of_lt (lt_of_lt_of_le h (by norm_num))

theorem isCanonicalUlid_ulidEncode (n : Nat) (h : n < 2 ^ 128) :
    isCanonicalUlid (ulidEncode n) = true := by
  have hlen : (natDigits 32 b32char 26 n).length = 26 := natDigits_length _ _ _ _
  have hall : (natDigits 32 b32char 26 n).all isCrockford = true :=
    natDigits_all _ _ _ (by norm_num) isCrockford_b32char _ _
  have hdiv : n / 32 ^ 25 < 8 := by
    have h32 : (32 : Nat) ^ 25 = 2 ^ 125 := by norm_num
    rw [h32]
    exact Nat.div_lt_of_lt_mul (by calc n < 2 ^ 128 := h
                                       _ = 2 ^ 125 * 8 := by norm_num)
  have hmod : n / 32 ^ 25 % 32 = n / 32 ^ 25 := Nat.mod_eq_of_lt (by omega)
  have hhead : (natDigits 32 b32char 26 n).headD ' ' = b32char (n / 32 ^ 25) := by
    rw [natDigits_succ_cons 32 b32char 25 n, List.headD_cons, hmod]
  rw [isCanonicalUlid, ulidEncode, toList_mk]
  rw [hlen, hhead]
  rw [hall]
  rw [b32char_first_eight _ hdiv]
  rfl

theorem stripDashes_insertDashes (cs : List Char)
    (hnd : ∀ c ∈ cs, (!(c == '-')) = true) :
    stripDashes (insertDashes cs) = cs := by
  have hpV : ∀ (l : List Char), l ⊆ cs →
      List.filter (fun c => !(c == '-')) l = l := by
    intro l hl
    exact List.filter_eq_self.mpr (fun c hc => hnd c (hl hc))
  have key : ∀ (l₁ l₂ : List Char), l₁ ⊆ cs →
      List.filter (fun c => !(c == '-')) (l₁ ++ '-' :: l₂) =
        l₁ ++ List.filter (fun c => !(c == '-')) l₂ := by
    intro l₁ l₂ h₁
    rw [List.filter_append, hpV l₁ h₁, List.filter_cons]
    simp
  rw [stripDashes, insertDashes,
    key _ _ (List.take_subset _ _),
    key _ _ ((List.take_subset _ _).trans (List.drop_subset _ _)),
    key _ _ ((List.take_subset _ _).trans (List.drop_subset _ _)),
    key _ _ ((List.take_subset _ _).trans (List.drop_subset _ _)),
    hpV _ (List.drop_subset _ _)]
  have h16 : (cs.drop 16).take 4 ++ cs.drop 20 = cs.drop 16 := by
    have he : cs.drop 20 = (cs.drop 16).drop 4 := by
      rw [List.drop_drop]
    rw [he, List.take_append_drop]
  have h12 : (cs.drop 12).take 4 ++ cs.drop 16 = cs.drop 12 := by
    have he : cs.drop 16 = (cs.drop 12).drop 4 := by
      rw [List.drop_drop]
    rw [he, List.take_append_drop]
  have h8 : (cs.drop 8).take 4 ++ cs.drop 12 = cs.drop 8 := by
    have he : cs.drop 12 = (cs.drop 8).drop 4 := by
      rw [List.drop_drop]
    rw [he, List.take_append_drop]
  rw [h16, h12, h8, List.take_append_drop]

theorem hexDigits_no_dash (n : Nat) :
    ∀ c ∈ natDigits 16 b16char 32 n, (!(c == '-')) = true := by
  have h := natDigits_all 16 b16char (fun c => !(c == '-')) (by norm_num)
    b16char_not_dash 32 n
  simpa [List.all_eq_true] using h

theorem uuidDecode_uuidCanonical (n : Nat) (h : n < 2 ^ 128) :
    uuidDecode (uuidCanonical n) = n := by
  rw [uuidDecode, uuidCanonical, toList_mk,
    stripDashes_insertDashes _ (hexDigits_no_dash n),
    digitsVal_natDigits 16 b16char c16val (by norm_num) c16val_b16char]
  exact Nat.mod_eq_of_lt (lt_of_lt_of_le h (by norm_num))

theorem rawHexDecode_rawHexEncode (n : Nat) (h : n < 2 ^ 128) :
    rawHexDecode (rawHexEncode n) = n := by
  rw [rawHexDecode, rawHexEncode, toList_mk,
    digitsVal_natDigits 16 b16char c16val (by norm_num) c16val_b16char]
  exact Nat.mod_eq_of_lt (lt_of_lt_of_le h (by norm_num))

theorem insertDashes_length (cs : List Char) (h : cs.length = 32) :
    (insertDashes cs).length = 36 := by
  simp only [insertDashes, List.length_append, List.length_cons,
    List.length_take, List.length_drop, h]
  norm_num

theorem isCanonicalUuid_uuidCanonical (n : Nat) (_h : n < 2 ^ 128) :
    isCanonicalUuid (uuidCanonical n) = true := by
  have hstrip : stripDashes (insertDashes (natDigits 16 b16char 32 n)) =
      natDigits 16 b16char 32 n := stripDashes_insertDashes _ (hexDigits_no_dash n)
  have hlen : (natDigits 16 b16char 32 n).length = 32 := natDigits_length _ _ _ _
  have hilen : (insertDashes (natDigits 16 b16char 32 n)).length = 36 :=
    insertDashes_length _ hlen
  have hall : (natDigits 16 b16char 32 n).all isHexDigit = true :=
    natDigits_all _ _ _ (by norm_num) isHexDigit_b16char _ _
  simp only [isCanonicalUuid, uuidCanonical, toList_mk, hstrip, hlen, hilen, hall]
  simp

theorem isCanonicalUlid_len (s : String) (h : s.toList.length ≠ 26) :
    isCanonicalUlid s = false := by
  have hb : (s.toList.length == 26) = false := by
    simpa using h
  show (s.toList.length == 26 && s.toList.all isCrockford &&
    (['0', '1', '2', '3', '4', '5', '6', '7'].contains (s.toList.headD ' ')))
      = false
  rw [hb, Bool.false_and, Bool.false_and]

theorem isCanonicalUuid_len (s : String) (h : s.toList.length ≠ 36) :
    isCanonicalUuid s = false := by
  have hb : (s.toList.length == 36) = false := by
    simpa using h
  show (s.toList.length == 36 && (stripDashes s.toList).length == 32 &&
    (stripDashes s.toList).all isHexDigit &&
    (s.toList == insertDashes (stripDashes s.toList))) = false
  rw [hb, Bool.false_and, Bool.false_and, Bool.false_and]

theorem isRawUuid_rawHexEncode (n : Nat) :
    isRawUuid (rawHexEncode n) = true := by
  have hlen : (natDigits 16 b16char 32 n).length = 32 := natDigits_length _ _ _ _
  have hall : (natDigits 16 b16char 32 n).all isHexDigit = true :=
    natDigits_all _ _ _ (by norm_num) isHexDigit_b16char _ _
  simp [isRawUuid, rawHexEncode, toList_mk, hlen, hall]

/-- C5: for every timestamp `t` (and random draw `r`), the generated
identifier is one 128-bit value `ulidValue t r` exposed as a sortable ULID
encoding and a UUID encoding; re-parsing either encoding (or the raw UUID
variant) independently re-yields the same 128-bit value and the same
canonical `(uuid, ulid)` pair, and parsing a string that is neither a
canonical ULID, a canonical UUID nor a raw UUID fails. -/
theorem newId_duality (t r : Nat) :
    parseUuidOrUlid (ulidEncode (ulidValue t r)) =
        some (uuidCanonical (ulidValue t r), ulidEncode (ulidValue t r)) ∧
    parseUuidOrUlid (uuidCanonical (ulidValue t r)) =
        some (uuidCanonical (ulidValue t r), ulidEncode (ulidValue t r)) ∧
    parseUuidOrUlid (rawHexEncode (ulidValue t r)) =
        some (uuidCanonical (ulidValue t r), ulidEncode (ulidValue t r)) ∧
    ulidDecode (ulidEncode (ulidValue t r)) = ulidValue t r ∧
    uuidDecode (uuidCanonical (ulidValue t r)) = ulidValue t r ∧
    rawHexDecode (rawHexEncode (ulidValue t r)) = ulidValue t r ∧
    (∀ s : String, isCanonicalUlid s = false → isCanonicalUuid s = false →
      isRawUuid s = false → parseUuidOrUlid s = none) := by
  have hv := ulidValue_lt t r
  have hulen : (ulidEncode (ulidValue t r)).toList.length = 26 := by
    rw [ulidEncode, toList_mk, natDigits_length]
  have huulen : (uuidCanonical (ulidValue t r)).toList.length = 36 := by
    rw [uuidCanonical, toList_mk, insertDashes_length _ (natDigits_length _ _ _ _)]
  have hrlen : (rawHexEncode (ulidValue t r)).toList.length = 32 := by
    rw [rawHexEncode, toList_mk, natDigits_length]
  refine ⟨?_, ?_, ?_, ulidDecode_ulidEncode _ hv, uuidDecode_uuidCanonical _ hv,
    rawHexDecode_rawHexEncode _ hv, ?_⟩
  · rw [parseUuidOrUlid, if_pos (isCanonicalUlid_ulidEncode _ hv), idPair,
      ulidDecode_ulidEncode _ hv]
  · rw [parseUuidOrUlid,
      if_neg (by rw [isCanonicalUlid_len _ (by omega)]; exact Bool.false_ne_true),
      if_pos (isCanonicalUuid_uuidCanonical _ hv), idPair,
      uuidDecode_uuidCanonical _ hv]
  · rw [parseUuidOrUlid,
      if_neg (by rw [isCanonicalUlid_len _ (by omega)]; exact Bool.false_ne_true),
      if_neg (by rw [isCanonicalUuid_len _ (by omega)]; exact Bool.false_ne_true),
      if_pos (isRawUuid_rawHexEncode _), idPair,
      rawHexDecode_rawHexEncode _ hv]
  · intro s h1 h2 h3
    rw [parseUuidOrUlid, if_neg (by rw [h1]; exact Bool.false_ne_true),
      if_neg (by rw [h2]; exact Bool.false_ne_true),
      if_neg (by rw [h3]; exact Bool.false_ne_true)]

theorem newId_duality_witness :
    parseUuidOrUlid "hello" = none ∧
    parseUuidOrUlid (ulidEncode (ulidValue 1700000000000 42)) =
      some (uuidCanonical (ulidValue 1700000000000 42),
            ulidEncode (ulidValue 1700000000000 42)) := by
  refine ⟨(newId_duality 1700000000000 42).2.2.2.2.2.2 "hello"
    (by decide) (by decide) (by decide), (newId_duality 1700000000000 42).1⟩

/-! ### Provider remapping resolver -/

/-- Failure modes of the provider-mapping loop (migrate.mts lines
139-172); the source throws `Error`s, distinguished here by constructor. -/
inductive MappingError
  | invalidFormat
  | unknownProvider
deriving DecidableEq

/-- Whether `id128` accepts the string as a raw UUID, a canonical UUID or
a canonical ULID — the validity test applied to the right-hand side of a
mapping (migrate.mts lines 147-151, negated there). -/
def recognizedId (s : String) : Bool :=
  isRawUuid s || isCanonicalUuid s || isCanonicalUlid s

/-- First element of `mapping.split(":")`:
the destructuring `const [providerId, masProviderId] = mapping.split(":")`
(migrate.mts line 140).  A missing element is `undefined`, which is falsy
exactly like `""`, so both are modelled by `""`. -/
def mappingLhs (m : String) : String := (jsSplit ':' m).getD 0 ""

/-- Second element of `mapping.split(":")` (migrate.mts line 140). -/
def mappingRhs (m : String) : String := (jsSplit ':' m).getD 1 ""

/-- One step of the provider-mapping loop in `migrate` (migrate.mts lines
139-172): destructure the split, check both sides non-falsy, check the
right side is a recognized identifier, convert it, and look the provider
up in the MAS database (modelled by the list `masProviders` of existing
provider UUIDs).  Returns the source-provider name and the canonical UUID
of the resolved provider row. -/
def resolveMapping (masProviders : List String) (m : String) :
    Except MappingError (String × String) :=
  let providerId := mappingLhs m
  let masProviderId := mappingRhs m
  if providerId = "" ∨ masProviderId = "" then .error .invalidFormat
  else if !recognizedId masProviderId then .error .invalidFormat
  else
    match parseUuidOrUlid masProviderId with
    | none => .error .invalidFormat
    | some (masProviderUuid, _) =>
      if masProviders.contains masProviderUuid then
        .ok (providerId, masProviderUuid)
      else .error .unknownProvider

/-- The part of a string after its first `:` — the right-hand side under
the claim's reading "splits it on the first colon". -/
def afterFirstColon (s : String) : String :=
  String.mk ((s.toList.dropWhile (fun c => !(c = ':'))).drop 1)

theorem jsSplitList_append_sep (sep : Char) (l₁ l₂ : List Char) :
    jsSplitList sep (l₁ ++ sep :: l₂) =
      jsSplitList sep l₁ ++ jsSplitList sep l₂ := by
  induction l₁ with
  | nil => simp [jsSplitList]
  | cons c l₁ ih =>
    simp only [List.cons_append, jsSplitList]
    by_cases h : c = sep
    · simp [h, ih]
    · have hne := jsSplitList_ne_nil sep l₁
      simp only [if_neg h]
      cases he : jsSplitList sep l₁ with
      | nil => exact absurd he hne
      | cons x xs =>
        simp only [List.append_eq]
        rw [ih, he]
        simp

theorem jsSplitList_length_ge_two (sep : Char) (l : List Char)
    (h : sep ∈ l) : 2 ≤ (jsSplitList sep l).length := by
  induction l with
  | nil => cases h
  | cons c cs ih =>
    simp only [jsSplitList]
    by_cases hc : c = sep
    · simp only [if_pos hc, List.length_cons]
      have := List.length_pos.mpr (jsSplitList_ne_nil sep cs)
      omega
    · have hmem : sep ∈ cs := by
        cases List.mem_cons.mp h with
        | inl he => exact absurd he.symm hc
        | inr hm => exact hm
      have h2 := ih hmem
      have hne := jsSplitList_ne_nil sep cs
      simp only [if_neg hc, List.length_cons]
      cases he : jsSplitList sep cs with
      | nil => exact absurd he hne
      | cons x xs =>
        rw [he] at h2
        simp at h2 ⊢
        omega

theorem recognized_of_parse (s : String) (v : String × String)
    (h : parseUuidOrUlid s = some v) : recognizedId s = true := by
  by_cases h1 : isCanonicalUlid s = true
  · simp [recognizedId, h1]
  · by_cases h2 : isCanonicalUuid s = true
    · simp [recognizedId, h2]
    · by_cases h3 : isRawUuid s = true
      · simp [recognizedId, h3]
      · rw [parseUuidOrUlid, if_neg h1, if_neg h2, if_neg h3] at h
        cases h

/-- Decidable equality for `Except`, needed to evaluate resolver results
on concrete inputs. -/
instance {e a : Type} [DecidableEq e] [DecidableEq a] :
    DecidableEq (Except e a) := fun x y =>
  match x, y with
  | .ok v, .ok w =>
    if h : v = w then .isTrue (congrArg Except.ok h)
    else .isFalse (fun he => h (Except.ok.inj he))
  | .error v, .error w =>
    if h : v = w then .isTrue (congrArg Except.error h)
    else .isFalse (fun he => h (Except.error.inj he))
  | .ok _, .error _ => .isFalse (fun he => Except.noConfusion he)
  | .error _, .ok _ => .isFalse (fun he => Except.noConfusion he)

/-- C4 counterexample: on the mapping
`p:00000000000000000000000000000000:x` the part after the first colon is
not a recognized identifier, so under the claim the resolver would have to
fail with a mapping-format error; the code instead splits on every colon,
uses only the first two segments, and succeeds. -/
theorem resolveMapping_counterexample :
    recognizedId (afterFirstColon "p:00000000000000000000000000000000:x")
        = false ∧
    resolveMapping ["00000000-0000-0000-0000-000000000000"]
        "p:00000000000000000000000000000000:x" =
      .ok ("p", "00000000-0000-0000-0000-000000000000") := by
  constructor
  · decide
  · decide

/-- C4 (amended): the resolver splits the mapping on every `:` and uses
only the first two segments (content after a second colon is ignored); it
fails with a mapping-format error when the first or second segment is
empty or missing, or when the second segment is not a recognized
UUID/ULID identifier form; it fails with an unknown-provider error when no
target provider row with that identifier exists; otherwise it records the
mapping from the source-provider name to the resolved provider. -/
theorem resolveMapping_amended :
    (∀ provs m, (mappingLhs m = "" ∨ mappingRhs m = "") →
      resolveMapping provs m = .error .invalidFormat) ∧
    (∀ provs m, recognizedId (mappingRhs m) = false →
      resolveMapping provs m = .error .invalidFormat) ∧
    (∀ (provs : List String) m u l, mappingLhs m ≠ "" → mappingRhs m ≠ "" →
      parseUuidOrUlid (mappingRhs m) = some (u, l) →
      provs.contains u = false →
      resolveMapping provs m = .error .unknownProvider) ∧
    (∀ (provs : List String) m u l, mappingLhs m ≠ "" → mappingRhs m ≠ "" →
      parseUuidOrUlid (mappingRhs m) = some (u, l) →
      provs.contains u = true →
      resolveMapping provs m = .ok (mappingLhs m, u)) ∧
    (∀ provs m junk, ':' ∈ m.toList →
      resolveMapping provs (m ++ ":" ++ junk) = resolveMapping provs m) := by
  have hsplit : ∀ (m junk : String), ':' ∈ m.toList →
      mappingLhs (m ++ ":" ++ junk) = mappingLhs m ∧
      mappingRhs (m ++ ":" ++ junk) = mappingRhs m := by
    intro m junk hmem
    have htl : (m ++ ":" ++ junk).toList = m.toList ++ ':' :: junk.toList := by
      show (m ++ ":" ++ junk).data = m.data ++ ':' :: junk.data
      rw [String.data_append, String.data_append]
      simp [List.append_assoc]
    have hlen2 : 2 ≤ (jsSplitList ':' m.toList).length :=
      jsSplitList_length_ge_two _ _ hmem
    constructor
    · rw [mappingLhs, mappingLhs, jsSplit, jsSplit, htl, jsSplitList_append_sep,
        List.map_append, List.getD_append]
      rw [List.length_map]
      omega
    · rw [mappingRhs, mappingRhs, jsSplit, jsSplit, htl, jsSplitList_append_sep,
        List.map_append, List.getD_append]
      rw [List.length_map]
      omega
  refine ⟨?_, ?_, ?_, ?_, ?_⟩
  · intro provs m h
    simp only [resolveMapping]
    rw [if_pos h]
  · intro provs m h
    simp only [resolveMapping]
    by_cases hq : mappingLhs m = "" ∨ mappingRhs m = ""
    · rw [if_pos hq]
    · rw [if_neg hq, if_pos (by rw [h]; rfl)]
  · intro provs m u l hl hr hp hc
    simp only [resolveMapping]
    rw [if_neg (not_or.mpr ⟨hl, hr⟩),
      if_neg (by rw [recognized_of_parse _ _ hp]; simp), hp]
    simp [hc]
    simpa using hc
  · intro provs m u l hl hr hp hc
    simp only [resolveMapping]
    rw [if_neg (not_or.mpr ⟨hl, hr⟩),
      if_neg (by rw [recognized_of_parse _ _ hp]; simp), hp]
    simp [hc]
    simpa using hc
  · intro provs m junk hmem
    obtain ⟨hL, hR⟩ := hsplit m junk hmem
    simp only [resolveMapping, hL, hR]

theorem resolveMapping_amended_witness :
    resolveMapping [] ":x" = .error .invalidFormat ∧
    resolveMapping [] "p:zz" = .error .invalidFormat ∧
    resolveMapping [] "p:00000000000000000000000000000000"
        = .error .unknownProvider ∧
    resolveMapping ["00000000-0000-0000-0000-000000000000"]
        "p:00000000000000000000000000000000" =
      .ok ("p", "00000000-0000-0000-0000-000000000000") ∧
    resolveMapping [] ("p:q" ++ ":" ++ "r") = resolveMapping [] "p:q" := by
  refine ⟨resolveMapping_amended.1 [] ":x" (by decide),
    resolveMapping_amended.2.1 [] "p:zz" (by decide),
    resolveMapping_amended.2.2.1 [] "p:00000000000000000000000000000000"
      "00000000-0000-0000-0000-000000000000" "00000000000000000000000000"
      (by decide) (by decide) (by decide) (by decide),
    resolveMapping_amended.2.2.2.1 ["00000000-0000-0000-0000-000000000000"]
      "p:00000000000000000000000000000000"
      "00000000-0000-0000-0000-000000000000" "00000000000000000000000000"
      (by decide) (by decide) (by decide) (by decide),
    resolveMapping_amended.2.2.2.2 [] "p:q" "r" (by decide)⟩

/-! ### Data model

Source rows (`S*`) mirror the `types/*.d.ts` declarations as used by
migrate.mts (the `SUser` field set is pinned by `SUserColumns`, lines
421-429); target rows (`M*`) mirror the record literals constructed in
`migrateUser`.  `Date` values are epoch milliseconds as `Nat`. -/

structure SUser where
  name : String
  password_hash : Option String
  admin : Nat
  is_guest : Nat
  deactivated : Nat
  creation_ts : Nat
  appservice_id : Option String
deriving DecidableEq

structure SUserThreePid where
  user_id : String
  medium : String
  address : String
  validated_at : Option Nat
  added_at : Nat
deriving DecidableEq

structure SUserExternalId where
  auth_provider : String
  external_id : String
  user_id : String
deriving DecidableEq

structure SAccessToken where
  id : Nat
  user_id : String
  device_id : Option String
  token : String
  last_validated : Option Nat
  refresh_token_id : Option Nat
deriving DecidableEq

structure SRefreshToken where
  id : Nat
  user_id : String
  token : String
deriving DecidableEq

structure MUser where
  user_id : String
  username : String
  created_at : Nat
  locked_at : Option Nat
  can_request_admin : Bool
deriving DecidableEq

structure MUserPassword where
  user_password_id : String
  user_id : String
  hashed_password : String
  created_at : Nat
  version : Nat
deriving DecidableEq

structure MUserEmail where
  user_email_id : String
  user_id : String
  email : String
  created_at : Nat
  confirmed_at : Option Nat
deriving DecidableEq

structure MUpstreamOauthLink where
  upstream_oauth_link_id : String
  user_id : String
  upstream_oauth_provider_id : String
  subject : String
  created_at : Nat
deriving DecidableEq

structure MCompatSession where
  compat_session_id : String
  user_id : String
  device_id : String
  created_at : Nat
  is_synapse_admin : Bool
deriving DecidableEq

structure MCompatAccessToken where
  compat_access_token_id : String
  compat_session_id : String
  access_token : String
  created_at : Nat
deriving DecidableEq

structure MCompatRefreshToken where
  compat_refresh_token_id : String
  compat_session_id : String
  compat_access_token_id : String
  refresh_token : String
  created_at : Nat
deriving DecidableEq

/-- A row inserted into the MAS database, tagged by target table. -/
inductive TargetRow
  | users (r : MUser)
  | userPasswords (r : MUserPassword)
  | userEmails (r : MUserEmail)
  | upstreamOauthLinks (r : MUpstreamOauthLink)
  | compatSessions (r : MCompatSession)
  | compatAccessTokens (r : MCompatAccessToken)
  | compatRefreshTokens (r : MCompatRefreshToken)
deriving DecidableEq

/-! ### JSON rendering and the redaction contract

`stringifyAndRedact` (migrate.mts lines 174-181) runs `JSON.stringify` on
a record and then a single (non-global) regex replacement.  JSON values
are modelled as rendered by `JSON.stringify` on the records the tool
logs; a JS `Date` renders as a quoted ISO-8601 string, but since the
redaction regex is insensitive to how a timestamp renders (timestamps
contain no quote and none of the redacted keys), dates are modelled by
their epoch-millisecond number. -/

inductive JVal
  | str (v : String)
  | num (v : Nat)
  | boolean (v : Bool)
  | nul
deriving DecidableEq

/-- Opening brace, built by code point. -/
def lbrace : Char := Char.ofNat 123

/-- Closing brace, built by code point. -/
def rbrace : Char := Char.ofNat 125

/-- JSON escaping of one character (quote and backslash). -/
def jsonEscChar (c : Char) : List Char :=
  if c = '"' ∨ c = '\\' then ['\\', c] else [c]

/-- A JSON string literal with its quotes. -/
def jsonStr (s : String) : List Char :=
  '"' :: (s.toList.map jsonEscChar).flatten ++ ['"']

def renderJVal : JVal → List Char
  | .str v => jsonStr v
  | .num v => (Nat.repr v).toList
  | .boolean true => "true".toList
  | .boolean false => "false".toList
  | .nul => "null".toList

def renderFields : List (String × JVal) → List Char
  | [] => []
  | [(k, v)] => jsonStr k ++ ':' :: renderJVal v
  | (k, v) :: rest => jsonStr k ++ ':' :: renderJVal v ++ ',' :: renderFields rest

/-- `JSON.stringify` of an object, fields in insertion order. -/
def jsonStringify (o : List (String × JVal)) : List Char :=
  lbrace :: renderFields o ++ [rbrace]

def renderArrElems : List (List (String × JVal)) → List Char
  | [] => []
  | [o] => jsonStringify o
  | o :: os => jsonStringify o ++ ',' :: renderArrElems os

/-- `JSON.stringify` of an array of objects. -/
def jsonStringifyArr (os : List (List (String × JVal))) : List Char :=
  '[' :: renderArrElems os ++ [']']

/-- The four field names redacted by the regex (migrate.mts line 178), in
alternation order. -/
def redactedKeys : List String :=
  ["password_hash", "hashed_password", "access_token", "token"]

/-- If the text at this position starts with `"key":"` for a redacted
key, return the matched group-1 prefix and the text after the value's
opening quote. -/
def matchRedactKey (cs : List Char) : Option (List Char × List Char) :=
  (redactedKeys.filterMap (fun k =>
    let pat := '"' :: k.toList ++ '"' :: ':' :: ['"']
    if pat.isPrefixOf cs then some (pat, cs.drop pat.length) else none)).head?

/-- The `[^"]*"` part of the regex: consume the value up to the next
`"`; fails when no closing quote exists (then the regex cannot match at
this position). -/
def afterClosingQuote (cs : List Char) : Option (List Char) :=
  match cs.dropWhile (fun c => !(c = '"')) with
  | [] => none
  | _ :: after => some after

/-- JS non-global `String.prototype.replace` with the redaction regex
`("(password_hash|hashed_password|access_token|token)":")[^"]*"` and
replacement `$1redacted"`: scan left to right, rewrite the first match
only, copy everything else verbatim. -/
def redactFirst : List Char → List Char
  | [] => []
  | c :: cs =>
    match matchRedactKey (c :: cs) with
    | some (pat, rest) =>
      match afterClosingQuote rest with
      | some after => pat ++ "redacted".toList ++ '"' :: after
      | none => c :: redactFirst cs
    | none => c :: redactFirst cs

/-- `stringifyAndRedact` (migrate.mts lines 174-181) on an object. -/
def stringifyAndRedact (o : List (String × JVal)) : String :=
  String.mk (redactFirst (jsonStringify o))

/-- `stringifyAndRedact` on an array of records (used for the
`synapseExternalIds` log line, migrate.mts line 297). -/
def stringifyAndRedactArr (os : List (List (String × JVal))) : String :=
  String.mk (redactFirst (jsonStringifyArr os))

def joptStr : Option String → JVal
  | some s => .str s
  | none => .nul

def joptNum : Option Nat → JVal
  | some n => .num n
  | none => .nul

/-- `JSON.stringify` shape of an `SUser` row (selected column order is the
`SUserColumns` key order, migrate.mts lines 421-435). -/
def jsonOfSUser (u : SUser) : List (String × JVal) :=
  [("name", .str u.name), ("password_hash", joptStr u.password_hash),
   ("admin", .num u.admin), ("is_guest", .num u.is_guest),
   ("deactivated", .num u.deactivated), ("creation_ts", .num u.creation_ts),
   ("appservice_id", joptStr u.appservice_id)]

def jsonOfMUser (r : MUser) : List (String × JVal) :=
  [("user_id", .str r.user_id), ("username", .str r.username),
   ("created_at", .num r.created_at), ("locked_at", joptNum r.locked_at),
   ("can_request_admin", .boolean r.can_request_admin)]

def jsonOfMUserPassword (r : MUserPassword) : List (String × JVal) :=
  [("user_password_id", .str r.user_password_id), ("user_id", .str r.user_id),
   ("hashed_password", .str r.hashed_password),
   ("created_at", .num r.created_at), ("version", .num r.version)]

/-- Column order of `user_threepids` as returned by `SELECT *`, modelled
from the spec's SourceThreePid description. -/
def jsonOfSUserThreePid (tp : SUserThreePid) : List (String × JVal) :=
  [("user_id", .str tp.user_id), ("medium", .str tp.medium),
   ("address", .str tp.address), ("validated_at", joptNum tp.validated_at),
   ("added_at", .num tp.added_at)]

/-- `confirmed_at` is only assigned when `validated_at` is present
(migrate.mts lines 261-265), so the property is absent otherwise. -/
def jsonOfMUserEmail (r : MUserEmail) : List (String × JVal) :=
  [("user_email_id", .str r.user_email_id), ("user_id", .str r.user_id),
   ("email", .str r.email), ("created_at", .num r.created_at)] ++
  (match r.confirmed_at with
   | some t => [("confirmed_at", JVal.num t)]
   | none => [])

def jsonOfSUserExternalId (e : SUserExternalId) : List (String × JVal) :=
  [("auth_provider", .str e.auth_provider),
   ("external_id", .str e.external_id), ("user_id", .str e.user_id)]

def jsonOfMUpstreamOauthLink (r : MUpstreamOauthLink) : List (String × JVal) :=
  [("upstream_oauth_link_id", .str r.upstream_oauth_link_id),
   ("user_id", .str r.user_id),
   ("upstream_oauth_provider_id", .str r.upstream_oauth_provider_id),
   ("subject", .str r.subject), ("created_at", .num r.created_at)]

/-- Column order of `access_tokens` as returned by `SELECT *`, modelled
from the spec's SourceAccessToken description. -/
def jsonOfSAccessToken (t : SAccessToken) : List (String × JVal) :=
  [("id", .num t.id), ("user_id", .str t.user_id),
   ("device_id", joptStr t.device_id), ("token", .str t.token),
   ("last_validated", joptNum t.last_validated),
   ("refresh_token_id", joptNum t.refresh_token_id)]

def jsonOfMCompatSession (r : MCompatSession) : List (String × JVal) :=
  [("compat_session_id", .str r.compat_session_id),
   ("user_id", .str r.user_id), ("device_id", .str r.device_id),
   ("created_at", .num r.created_at),
   ("is_synapse_admin", .boolean r.is_synapse_admin)]

def jsonOfMCompatAccessToken (r : MCompatAccessToken) : List (String × JVal) :=
  [("compat_access_token_id", .str r.compat_access_token_id),
   ("compat_session_id", .str r.compat_session_id),
   ("access_token", .str r.access_token), ("created_at", .num r.created_at)]

def jsonOfMCompatRefreshToken (r : MCompatRefreshToken) :
    List (String × JVal) :=
  [("compat_refresh_token_id", .str r.compat_refresh_token_id),
   ("compat_session_id", .str r.compat_session_id),
   ("compat_access_token_id", .str r.compat_access_token_id),
   ("refresh_token", .str r.refresh_token), ("created_at", .num r.created_at)]

/-! ### Run state and the migration pipeline

`migrate()` (migrate.mts lines 61-461) is modelled as a state-passing
function.  `process.exit(1)` inside `fatal` and exceptions propagating
out of `migrate` are both modelled by the `.error` side of `Except`,
tagged with how the run stopped and carrying the state at that moment.
Within one loop, warning, debug and row effects are appended in their
chronological order per kind of effect. -/

structure RunState where
  warnings : List String
  fatals : Nat
  written : List TargetRow
  extractions : List String
  warnLog : List String
  fatalLog : List String
  debugLog : List String
  rng : Nat
deriving DecidableEq

def initialRunState : RunState :=
  { warnings := [], fatals := 0, written := [], extractions := [],
    warnLog := [], fatalLog := [], debugLog := [], rng := 0 }

/-- Why a run stopped early: `process.exit(1)` inside `fatal`, or a
thrown exception propagating out of `migrate()`. -/
inductive RunStop
  | exit1
  | thrown
deriving DecidableEq

/-- State change common to both branches of `fatal` (migrate.mts lines
105-113): log the message at fatal level and replay every accumulated
warning at warn level. -/
def fatalState (msg : String) (st : RunState) : RunState :=
  { st with fatalLog := st.fatalLog ++ [msg],
            warnLog := st.warnLog ++ st.warnings }

/-- `fatal` (migrate.mts lines 105-113): when not in dry-run the process
exits before `fatals` is incremented; in dry-run the fatal is counted and
the run continues. -/
def fatal (dryRun : Bool) (msg : String) (st : RunState) :
    Except (RunStop × RunState) RunState :=
  if dryRun then .ok { fatalState msg st with fatals := st.fatals + 1 }
  else .error (.exit1, fatalState msg st)

/-- `warn` (migrate.mts lines 101-103). -/
def warnState (msg : String) (st : RunState) : RunState :=
  { st with warnings := st.warnings ++ [msg] }

/-- The Synapse database contents visible to the tool. -/
structure SourceDb where
  users : List SUser
  threepids : List SUserThreePid
  externalIds : List SUserExternalId
  accessTokens : List SAccessToken
  refreshTokens : List SRefreshToken

/-- Inputs fixed for one run: CLI flags, the provider UUIDs present in
the MAS `upstream_oauth_providers` table, the pre-existing row count of
the MAS `users` table, the Synapse data, which MAS inserts fail (a
constraint violation at commit time), and the random stream feeding
`id128.Ulid.generate`. -/
structure RunCtx where
  dryRun : Bool
  mappings : List String
  masProviders : List String
  existingMasUsers : Nat
  source : SourceDb
  insertFails : TargetRow → Bool
  rho : Nat → Nat

/-- JS truthiness of a nullable string: `null`, `undefined` and `""` are
falsy. -/
def jsTruthyStr : Option String → Bool
  | some s => !(s == "")
  | none => false

/-- JS `s.slice(-4)`: the last four characters. -/
def jsSliceNeg4 (s : String) : String :=
  String.mk (s.toList.drop (s.toList.length - 4))

/-- `userCreatedAt` (migrate.mts lines 208-210): `creation_ts` is epoch
seconds and is multiplied by 1000. -/
def userCreatedAt (u : SUser) : Nat := u.creation_ts * 1000

/-- `threePidCreatedAt` (migrate.mts lines 251-253): `added_at` is epoch
milliseconds, used unscaled. -/
def threePidCreatedAt (tp : SUserThreePid) : Nat := tp.added_at

/-- `tokenCreatedAt` (migrate.mts lines 327-329): `last_validated` is
epoch milliseconds used unscaled; fallback is the user's created-at. -/
def tokenCreatedAt (u : SUser) (t : SAccessToken) : Nat :=
  match t.last_validated with
  | some v => v
  | none => userCreatedAt u

/-- `masUser` (migrate.mts lines 211-217). -/
def mkMasUser (rho : Nat → Nat) (k : Nat) (u : SUser) : MUser :=
  { user_id := makeUuid rho k (userCreatedAt u)
    username := localpart u.name
    created_at := userCreatedAt u
    locked_at := if u.deactivated = 1 then some (userCreatedAt u) else none
    can_request_admin := u.admin == 1 }

/-- `masUserPassword` (migrate.mts lines 222-228). -/
def mkMasUserPassword (rho : Nat → Nat) (k : Nat) (u : SUser) (mu : MUser)
    (hash : String) : MUserPassword :=
  { user_password_id := makeUuid rho k (userCreatedAt u)
    user_id := mu.user_id
    hashed_password := hash
    created_at := mu.created_at
    version := 1 }

/-- `masUserEmail` (migrate.mts lines 254-265). -/
def mkMasUserEmail (rho : Nat → Nat) (k : Nat) (masUserId : String)
    (tp : SUserThreePid) : MUserEmail :=
  { user_email_id := makeUuid rho k (threePidCreatedAt tp)
    user_id := masUserId
    email := jsToLower tp.address
    created_at := threePidCreatedAt tp
    confirmed_at := tp.validated_at }

/-- `masUpstreamOauthLink` (migrate.mts lines 288-294). -/
def mkMasUpstreamOauthLink (rho : Nat → Nat) (k : Nat) (u : SUser)
    (masUserId providerUuid : String) (e : SUserExternalId) :
    MUpstreamOauthLink :=
  { upstream_oauth_link_id := makeUuid rho k (userCreatedAt u)
    user_id := masUserId
    upstream_oauth_provider_id := providerUuid
    subject := e.external_id
    created_at := userCreatedAt u }

/-- `masCompatSession` (migrate.mts lines 330-336). -/
def mkMasCompatSession (rho : Nat → Nat) (k : Nat) (u : SUser)
    (masUserId : String) (t : SAccessToken) : MCompatSession :=
  { compat_session_id := makeUuid rho k (tokenCreatedAt u t)
    user_id := masUserId
    device_id := t.device_id.getD ""
    created_at := tokenCreatedAt u t
    is_synapse_admin := u.admin == 1 }

/-- `masCompatAccessToken` (migrate.mts lines 346-351). -/
def mkMasCompatAccessToken (rho : Nat → Nat) (k : Nat) (u : SUser)
    (sessionId : String) (t : SAccessToken) : MCompatAccessToken :=
  { compat_access_token_id := makeUuid rho k (tokenCreatedAt u t)
    compat_session_id := sessionId
    access_token := t.token
    created_at := tokenCreatedAt u t }

/-- `masCompatRefreshToken` (migrate.mts lines 368-375). -/
def mkMasCompatRefreshToken (rho : Nat → Nat) (k : Nat) (u : SUser)
    (sessionId accessTokenId : String) (t : SAccessToken)
    (rt : SRefreshToken) : MCompatRefreshToken :=
  { compat_refresh_token_id := makeUuid rho k (tokenCreatedAt u t)
    compat_session_id := sessionId
    compat_access_token_id := accessTokenId
    refresh_token := rt.token
    created_at := tokenCreatedAt u t }

def guestMsg (u : SUser) : String :=
  "Migration of guest users is not supported: " ++ u.name

def nonEmailWarnMsg (u : SUser) (tp : SUserThreePid) : String :=
  "Skipping non-email 3pid " ++ tp.medium ++ " for user " ++ u.name

def missingRefreshWarnMsg (u : SUser) (rid : Nat) : String :=
  "Unable to locate refresh token " ++ Nat.repr rid ++ " for user " ++ u.name

def unknownProviderMsg (u : SUser) (e : SUserExternalId) : String :=
  "Failed to import external id " ++ e.external_id ++ " with " ++
    e.auth_provider ++ " for user " ++ u.name ++
    ": Error: Unknown upstream provider " ++ e.auth_provider

def warnSummaryMsg (u : SUser) (wfu : Nat) : String :=
  "User " ++ u.name ++ " had " ++ Nat.repr wfu ++ " warnings"

/-- `upstreamProviders.get` — JS `Map` lookup.  `resolveMappingsRun`
prepends later entries, so `find?` sees the latest `set` first, matching
`Map` overwrite semantics. -/
def lookupProvider (provs : List (String × String)) (name : String) :
    Option String :=
  (provs.find? (fun p => p.1 == name)).map (fun p => p.2)

/-- The three-pid loop (migrate.mts lines 243-273): per three-pid either
a warning (non-email medium) or an email row plus its debug line.
Returns rows, warning messages, debug lines and the next random index. -/
def emailLoop (rho : Nat → Nat) (user : SUser) (masUserId : String) :
    List SUserThreePid → Nat →
      List MUserEmail × List String × List String × Nat
  | [], k => ⟨[], [], [], k⟩
  | tp :: tps, k =>
    if tp.medium ≠ "email" then
      let r := emailLoop rho user masUserId tps k
      ⟨r.1, nonEmailWarnMsg user tp :: r.2.1, r.2.2.1, r.2.2.2⟩
    else
      let row := mkMasUserEmail rho k masUserId tp
      let r := emailLoop rho user masUserId tps (k + 1)
      ⟨row :: r.1, r.2.1,
        (stringifyAndRedact (jsonOfSUserThreePid tp) ++ " => " ++
          stringifyAndRedact (jsonOfMUserEmail row)) :: r.2.2.1, r.2.2.2⟩

/-- The external-id loop (migrate.mts lines 280-310): resolve the
provider through the operator mapping; an unknown provider is caught and
passed to `fatal` (exits in real-run, is counted and skipped in dry-run).
The debug line renders the whole `synapseExternalIds` array each
iteration, as the source does (line 297). -/
def linkLoop (dryRun : Bool) (rho : Nat → Nat)
    (provs : List (String × String)) (user : SUser) (masUserId : String)
    (allEids : List SUserExternalId) :
    List SUserExternalId → Nat → RunState →
      Except (RunStop × RunState) (RunState × List MUpstreamOauthLink × Nat)
  | [], k, st => .ok (st, [], k)
  | e :: es, k, st =>
    match lookupProvider provs e.auth_provider with
    | some providerUuid =>
      let row := mkMasUpstreamOauthLink rho k user masUserId providerUuid e
      let st1 := { st with debugLog := st.debugLog ++
        [stringifyAndRedactArr (allEids.map jsonOfSUserExternalId) ++
          " => " ++ stringifyAndRedact (jsonOfMUpstreamOauthLink row)] }
      match linkLoop dryRun rho provs user masUserId allEids es (k + 1) st1 with
      | .ok (st2, rows, k2) => .ok (st2, row :: rows, k2)
      | .error x => .error x
    | none =>
      match fatal dryRun (unknownProviderMsg user e) st with
      | .ok st1 => linkLoop dryRun rho provs user masUserId allEids es k st1
      | .error x => .error x

/-- `refresh_tokens` lookup by row id (migrate.mts lines 362-366). -/
def lookupRefreshToken (rts : List SRefreshToken) (rid : Nat) :
    Option SRefreshToken :=
  rts.find? (fun r => r.id == rid)

/-- The access-token loop (migrate.mts lines 326-391): per device-bound
token a compat session row and a compat access token row; when the token
references a refresh token, a `refresh_tokens` extraction query, then
either a compat refresh token row or a warning.  Returns the updated
state (extractions, warnings, debug lines), rows in push order, the
per-user warning count contributed, and the next random index. -/
def tokenLoop (rho : Nat → Nat) (rts : List SRefreshToken) (user : SUser)
    (masUserId : String) :
    List SAccessToken → Nat → RunState →
      RunState × List TargetRow × Nat × Nat
  | [], k, st => ⟨st, [], 0, k⟩
  | t :: ts, k, st =>
    let sess := mkMasCompatSession rho k user masUserId t
    let acc := mkMasCompatAccessToken rho (k + 1) user sess.compat_session_id t
    let st1 := { st with debugLog := st.debugLog ++
      [stringifyAndRedact (jsonOfSAccessToken t) ++ " => " ++
        stringifyAndRedact (jsonOfMCompatSession sess),
       "Access token " ++ Nat.repr t.id ++ " => " ++
        stringifyAndRedact (jsonOfMCompatAccessToken acc)] }
    match t.refresh_token_id with
    | none =>
      let r := tokenLoop rho rts user masUserId ts (k + 2) st1
      ⟨r.1, TargetRow.compatSessions sess :: TargetRow.compatAccessTokens acc
        :: r.2.1, r.2.2.1, r.2.2.2⟩
    | some rid =>
      let st2 := { st1 with extractions := st1.extractions ++
        ["refresh_tokens"] }
      match lookupRefreshToken rts rid with
      | some rt =>
        let refr := mkMasCompatRefreshToken rho (k + 2) user
          sess.compat_session_id acc.compat_access_token_id t rt
        let st3 := { st2 with debugLog := st2.debugLog ++
          ["Refresh token " ++ Nat.repr rt.id ++ " => " ++
            stringifyAndRedact (jsonOfMCompatRefreshToken refr)] }
        let r := tokenLoop rho rts user masUserId ts (k + 3) st3
        ⟨r.1, TargetRow.compatSessions sess ::
          TargetRow.compatAccessTokens acc ::
          TargetRow.compatRefreshTokens refr :: r.2.1, r.2.2.1, r.2.2.2⟩
      | none =>
        let st3 := warnState (missingRefreshWarnMsg user rid) st2
        let r := tokenLoop rho rts user masUserId ts (k + 2) st3
        ⟨r.1, TargetRow.compatSessions sess ::
          TargetRow.compatAccessTokens acc :: r.2.1,
          r.2.2.1 + 1, r.2.2.2⟩

/-- The body of `migrateUser` between the guest check and the disposition
step (migrate.mts lines 207-392): user row, optional password row,
three-pid loop with its extraction query, external-id loop with its
extraction query, and — for non-deactivated users only — the access-token
loop with its extraction query.  Returns the updated state, the
`executions` insertion list in push order, and `warningsForUser`. -/
def migrateUserBuild (ctx : RunCtx) (provs : List (String × String))
    (user : SUser) (st1 : RunState) :
    Except (RunStop × RunState) (RunState × List TargetRow × Nat) :=
    let k0 := st1.rng
    let mu := mkMasUser ctx.rho k0 user
    let st2 := { st1 with debugLog := st1.debugLog ++
      [stringifyAndRedact (jsonOfSUser user) ++ " => " ++
        stringifyAndRedact (jsonOfMUser mu)] }
    let pw : List TargetRow × List String × Nat :=
      if jsTruthyStr user.password_hash then
        let hash := user.password_hash.getD ""
        let mp := mkMasUserPassword ctx.rho (k0 + 1) user mu hash
        ⟨[TargetRow.userPasswords mp],
          ["Password " ++ jsSliceNeg4 hash ++ " => " ++
            stringifyAndRedact (jsonOfMUserPassword mp)], k0 + 2⟩
      else ⟨[], [], k0 + 1⟩
    let st3 := { st2 with debugLog := st2.debugLog ++ pw.2.1,
                          extractions := st2.extractions ++ ["user_threepids"] }
    let tps := ctx.source.threepids.filter (fun tp => tp.user_id == user.name)
    let em := emailLoop ctx.rho user mu.user_id tps pw.2.2
    let st4 := { st3 with warnings := st3.warnings ++ em.2.1,
                          debugLog := st3.debugLog ++ em.2.2.1,
                          extractions := st3.extractions ++
                            ["user_external_ids"] }
    let eids := ctx.source.externalIds.filter
      (fun e => e.user_id == user.name)
    match linkLoop ctx.dryRun ctx.rho provs user mu.user_id eids eids
        em.2.2.2 st4 with
    | .error x => .error x
    | .ok (st5, linkRows, k3) =>
      if user.deactivated = 1 then
        .ok ({ st5 with rng := k3 },
          TargetRow.users mu :: pw.1 ++ em.1.map TargetRow.userEmails ++
            linkRows.map TargetRow.upstreamOauthLinks,
          em.2.1.length)
      else
        let st6 := { st5 with extractions := st5.extractions ++
          ["access_tokens"] }
        let toks := ctx.source.accessTokens.filter
          (fun t => t.user_id == user.name && t.device_id.isSome)
        let tk := tokenLoop ctx.rho ctx.source.refreshTokens user mu.user_id
          toks k3 st6
        .ok ({ tk.1 with rng := tk.2.2.2 },
          TargetRow.users mu :: pw.1 ++ em.1.map TargetRow.userEmails ++
            linkRows.map TargetRow.upstreamOauthLinks ++ tk.2.1,
          em.2.1.length + tk.2.2.1)

/-- `migrateUser` up to the disposition step (migrate.mts lines 196-392):
the guest check, then `migrateUserBuild`. -/
def migrateUserCore (ctx : RunCtx) (provs : List (String × String))
    (user : SUser) (st0 : RunState) :
    Except (RunStop × RunState) (RunState × List TargetRow × Nat) :=
  match (if user.is_guest = 1 then fatal ctx.dryRun (guestMsg user) st0
         else .ok st0) with
  | .error x => .error x
  | .ok st1 => migrateUserBuild ctx provs user st1

/-- The per-user insert runner (migrate.mts lines 402-416).  The
`executions` closures call `mas.insert(...)` on the base knex connection
pool — not on the transaction `tx` opened at line 402 — so each insert
auto-commits on its own pooled connection as it runs: rows inserted
before a failing insert stay committed, and `tx.rollback()` has no
statements to undo.  Returns the written rows and whether every insert
succeeded. -/
def runInserts (fails : TargetRow → Bool) :
    List TargetRow → List TargetRow → List TargetRow × Bool
  | [], acc => (acc, true)
  | r :: rs, acc =>
    if fails r then (acc, false) else runInserts fails rs (acc ++ [r])

/-- Disposition step of `migrateUser` (migrate.mts lines 394-417): warn
count positive escalates to `fatal` in real-run and to a warn-level log
line in dry-run; otherwise in real-run the executions are run and a
failure is rethrown after the (empty) transaction is rolled back. -/
def migrateUserCommit (ctx : RunCtx) (user : SUser)
    (execs : List TargetRow) (wfu : Nat) (st : RunState) :
    Except (RunStop × RunState) RunState :=
  if 0 < wfu then
    if !ctx.dryRun then fatal ctx.dryRun (warnSummaryMsg user wfu) st
    else .ok { st with warnLog := st.warnLog ++ [warnSummaryMsg user wfu] }
  else if !ctx.dryRun then
    match runInserts ctx.insertFails execs st.written with
    | (written2, true) => .ok { st with written := written2 }
    | (written2, false) => .error (.thrown, { st with written := written2 })
  else .ok st

/-- `migrateUser` (migrate.mts lines 196-418). -/
def migrateUser (ctx : RunCtx) (provs : List (String × String))
    (user : SUser) (st : RunState) : Except (RunStop × RunState) RunState :=
  match migrateUserCore ctx provs user st with
  | .error x => .error x
  | .ok (st1, execs, wfu) => migrateUserCommit ctx user execs wfu st1

/-- The per-user iteration (migrate.mts lines 440-452; the sqlite and
streaming paths produce the same logical sequence). -/
def usersLoop (ctx : RunCtx) (provs : List (String × String)) :
    List SUser → RunState → Except (RunStop × RunState) RunState
  | [], st => .ok st
  | u :: us, st =>
    match migrateUser ctx provs u st with
    | .error x => .error x
    | .ok st1 => usersLoop ctx provs us st1

/-- The provider-mapping loop (migrate.mts lines 139-172), prepending so
that `lookupProvider`'s `find?` sees the latest `Map.set` first. -/
def resolveMappingsRun (masProviders : List String)
    (acc : List (String × String)) :
    List String → Except MappingError (List (String × String))
  | [] => .ok acc
  | m :: ms =>
    match resolveMapping masProviders m with
    | .error e => .error e
    | .ok p => resolveMappingsRun masProviders (p :: acc) ms

/-- Outcome of `migrate()`: stopped early (exit or uncaught throw), or
ran to the summary, which reports failure when any fatal was counted
(migrate.mts lines 454-460). -/
inductive RunOutcome
  | stopped (k : RunStop) (st : RunState)
  | finished (ok : Bool) (st : RunState)
deriving DecidableEq

def RunOutcome.state : RunOutcome → RunState
  | .stopped _ st => st
  | .finished _ st => st

def RunOutcome.isSuccess : RunOutcome → Bool
  | .finished true _ => true
  | _ => false

def gateMsg (count : Nat) : String :=
  "Found " ++ Nat.repr count ++
    " existing users in MAS. Refusing to continue. Please clean MAS and try again."

/-- The part of `migrate()` after the safety gate (migrate.mts lines
420-460): issue the `users` extraction query, process every eligible
(non-appservice) user, then emit the summary, replay all warnings and
throw if any fatal was counted. -/
def migrateRunTail (ctx : RunCtx) (provs : List (String × String))
    (st0 : RunState) : RunOutcome :=
  let st1 := { st0 with extractions := st0.extractions ++ ["users"] }
  match usersLoop ctx provs
      (ctx.source.users.filter (fun u => u.appservice_id == none)) st1 with
  | .error (k, st) => .stopped k st
  | .ok st2 =>
    let st3 := { st2 with warnLog := st2.warnLog ++ st2.warnings }
    .finished (st3.fatals == 0) st3

/-- `migrate()` (migrate.mts lines 61-461): resolve provider mappings
(throwing on the first bad one), run the safety gate on the MAS `users`
count, then `migrateRunTail`. -/
def migrateRun (ctx : RunCtx) : RunOutcome :=
  match resolveMappingsRun ctx.masProviders [] ctx.mappings with
  | .error _ => .stopped .thrown initialRunState
  | .ok provs =>
    match (if 0 < ctx.existingMasUsers then
            fatal ctx.dryRun (gateMsg ctx.existingMasUsers) initialRunState
           else .ok initialRunState) with
    | .error (k, st) => .stopped k st
    | .ok st0 => migrateRunTail ctx provs st0

/-! ### Characterizations of the per-user loops -/

/-- Substring test used to exhibit secrets in rendered log lines. -/
def occursIn (needle : List Char) : List Char → Bool
  | [] => needle.isEmpty
  | c :: cs => needle.isPrefixOf (c :: cs) || occursIn needle cs

/-- Identifier-free content of an email row. -/
def eraseEmail (r : MUserEmail) : String × String × Nat × Option Nat :=
  (r.user_id, r.email, r.created_at, r.confirmed_at)

/-- Identifier-free content of a compat row. -/
inductive ErasedCompatRow
  | sess (userId devId : String) (created : Nat) (adm : Bool)
  | acc (tok : String) (created : Nat)
  | refr (tok : String) (created : Nat)
  | other
deriving DecidableEq

def eraseCompat : TargetRow → ErasedCompatRow
  | .compatSessions r => .sess r.user_id r.device_id r.created_at r.is_synapse_admin
  | .compatAccessTokens r => .acc r.access_token r.created_at
  | .compatRefreshTokens r => .refr r.refresh_token r.created_at
  | _ => .other

/-- The compat rows the token loop derives from one access token. -/
def expectedCompatRows (u : SUser) (uid : String) (rts : List SRefreshToken)
    (t : SAccessToken) : List ErasedCompatRow :=
  .sess uid (t.device_id.getD "") (tokenCreatedAt u t) (u.admin == 1) ::
  .acc t.token (tokenCreatedAt u t) ::
  (match t.refresh_token_id with
   | some rid =>
     match lookupRefreshToken rts rid with
     | some rt => [ErasedCompatRow.refr rt.token (tokenCreatedAt u t)]
     | none => []
   | none => [])

/-- The warnings the token loop emits: one per referenced but missing
refresh token. -/
def tokenWarns (u : SUser) (rts : List SRefreshToken) :
    List SAccessToken → List String :=
  List.filterMap (fun t =>
    match t.refresh_token_id with
    | some rid =>
      if (lookupRefreshToken rts rid).isSome then none
      else some (missingRefreshWarnMsg u rid)
    | none => none)

def emailRowOf : TargetRow → Option MUserEmail
  | .userEmails r => some r
  | _ => none

def linkRowOf : TargetRow → Option MUpstreamOauthLink
  | .upstreamOauthLinks r => some r
  | _ => none

def isCompatRow : TargetRow → Bool
  | .compatSessions _ => true
  | .compatAccessTokens _ => true
  | .compatRefreshTokens _ => true
  | _ => false

theorem emailLoop_warns (rho : Nat → Nat) (user : SUser) (uid : String)
    (tps : List SUserThreePid) (k : Nat) :
    (emailLoop rho user uid tps k).2.1 =
      (tps.filter (fun tp => !(tp.medium == "email"))).map
        (nonEmailWarnMsg user) := by
  induction tps generalizing k with
  | nil => rfl
  | cons tp tps ih =>
    simp only [emailLoop, List.filter_cons]
    by_cases h : tp.medium = "email"
    · rw [if_neg (by simp [h])]
      simp [h, ih]
    · rw [if_pos h]
      simp [(by simpa using h : (tp.medium == "email") = false), ih]

theorem emailLoop_rows (rho : Nat → Nat) (user : SUser) (uid : String)
    (tps : List SUserThreePid) (k : Nat) :
    (emailLoop rho user uid tps k).1.map eraseEmail =
      (tps.filter (fun tp => tp.medium == "email")).map
        (fun tp => (uid, jsToLower tp.address, threePidCreatedAt tp,
          tp.validated_at)) := by
  induction tps generalizing k with
  | nil => rfl
  | cons tp tps ih =>
    simp only [emailLoop, List.filter_cons]
    by_cases h : tp.medium = "email"
    · rw [if_neg (by simp [h])]
      simp [(by simpa using h : (tp.medium == "email") = true), ih,
        eraseEmail, mkMasUserEmail]
    · rw [if_pos h]
      simp [(by simpa using h : (tp.medium == "email") = false), ih]

theorem tokenLoop_state (rho : Nat → Nat) (rts : List SRefreshToken)
    (user : SUser) (uid : String) (ts : List SAccessToken) (k : Nat)
    (st : RunState) :
    (tokenLoop rho rts user uid ts k st).1.written = st.written ∧
    (tokenLoop rho rts user uid ts k st).1.fatals = st.fatals ∧
    (tokenLoop rho rts user uid ts k st).1.warnings =
      st.warnings ++ tokenWarns user rts ts ∧
    (tokenLoop rho rts user uid ts k st).1.warnLog = st.warnLog ∧
    (tokenLoop rho rts user uid ts k st).1.fatalLog = st.fatalLog := by
  induction ts generalizing k st with
  | nil => simp [tokenLoop, tokenWarns]
  | cons t ts ih =>
    cases hrid : t.refresh_token_id with
    | none =>
      simp [tokenLoop, hrid, tokenWarns, List.filterMap_cons, ih, warnState]
    | some rid =>
      cases hrt : lookupRefreshToken rts rid with
      | some rt =>
        simp [tokenLoop, hrid, hrt, tokenWarns, List.filterMap_cons, ih,
          warnState]
      | none =>
        simp [tokenLoop, hrid, hrt, tokenWarns, List.filterMap_cons, ih,
          warnState]

theorem tokenLoop_rows (rho : Nat → Nat) (rts : List SRefreshToken)
    (user : SUser) (uid : String) (ts : List SAccessToken) (k : Nat)
    (st : RunState) :
    (tokenLoop rho rts user uid ts k st).2.1.map eraseCompat =
      (ts.map (expectedCompatRows user uid rts)).flatten := by
  induction ts generalizing k st with
  | nil => rfl
  | cons t ts ih =>
    cases hrid : t.refresh_token_id with
    | none =>
      simp [tokenLoop, hrid, expectedCompatRows, ih, eraseCompat,
        mkMasCompatSession, mkMasCompatAccessToken]
    | some rid =>
      cases hrt : lookupRefreshToken rts rid with
      | some rt =>
        simp [tokenLoop, hrid, hrt, expectedCompatRows, ih, eraseCompat,
          mkMasCompatSession, mkMasCompatAccessToken,
          mkMasCompatRefreshToken]
      | none =>
        simp [tokenLoop, hrid, hrt, expectedCompatRows, ih, eraseCompat,
          mkMasCompatSession, mkMasCompatAccessToken]

theorem tokenLoop_wfu (rho : Nat → Nat) (rts : List SRefreshToken)
    (user : SUser) (uid : String) (ts : List SAccessToken) (k : Nat)
    (st : RunState) :
    (tokenLoop rho rts user uid ts k st).2.2.1 =
      (tokenWarns user rts ts).length := by
  induction ts generalizing k st with
  | nil => rfl
  | cons t ts ih =>
    cases hrid : t.refresh_token_id with
    | none => simp [tokenLoop, hrid, tokenWarns, List.filterMap_cons, ih]
    | some rid =>
      cases hrt : lookupRefreshToken rts rid with
      | some rt =>
        simp [tokenLoop, hrid, hrt, tokenWarns, List.filterMap_cons, ih]
      | none =>
        simp [tokenLoop, hrid, hrt, tokenWarns, List.filterMap_cons, ih]

/-- Every accumulated warning has been written to the warn-level log. -/
def Replayed (st : RunState) : Prop :=
  ∀ w ∈ st.warnings, w ∈ st.warnLog

/-- Identifier-free content of an upstream link row. -/
def eraseLink (r : MUpstreamOauthLink) : String × String × String × Nat :=
  (r.user_id, r.upstream_oauth_provider_id, r.subject, r.created_at)

theorem linkLoop_ok_inv (dry : Bool) (rho : Nat → Nat)
    (provs : List (String × String)) (user : SUser) (uid : String)
    (allE : List SUserExternalId) (es : List SUserExternalId) (k : Nat)
    (st st' : RunState) (rows : List MUpstreamOauthLink) (k2 : Nat)
    (h : linkLoop dry rho provs user uid allE es k st = .ok (st', rows, k2)) :
    st'.written = st.written ∧ st'.warnings = st.warnings ∧
    st.fatals ≤ st'.fatals := by
  induction es generalizing k st st' rows k2 with
  | nil =>
    simp only [linkLoop] at h
    obtain ⟨h1, _, _⟩ := Prod.mk.injEq .. ▸ (Except.ok.inj h)
    rw [← h1]
    exact ⟨rfl, rfl, le_refl _⟩
  | cons e es ih =>
    simp only [linkLoop] at h
    cases hl : lookupProvider provs e.auth_provider with
    | some pu =>
      rw [hl] at h
      simp only [] at h
      cases hrec : linkLoop dry rho provs user uid allE es (k + 1)
          { st with debugLog := st.debugLog ++
            [stringifyAndRedactArr (allE.map jsonOfSUserExternalId) ++
              " => " ++ stringifyAndRedact (jsonOfMUpstreamOauthLink
                (mkMasUpstreamOauthLink rho k user uid pu e))] } with
      | ok x =>
        obtain ⟨st2, rows2, k3⟩ := x
        rw [hrec] at h
        obtain ⟨h1, _, _⟩ := Prod.mk.injEq .. ▸ (Except.ok.inj h)
        obtain ⟨w2, g2, f2⟩ := ih _ _ _ _ _ hrec
        rw [← h1]
        exact ⟨w2, g2, f2⟩
      | error x =>
        rw [hrec] at h
        cases h
    | none =>
      rw [hl] at h
      simp only [fatal, fatalState] at h
      by_cases hdry : dry = true
      · rw [if_pos hdry] at h
        obtain ⟨w2, g2, f2⟩ := ih _ _ _ _ _ h
        exact ⟨w2, g2, le_trans (Nat.le_succ _) f2⟩
      · rw [if_neg hdry] at h
        cases h

theorem linkLoop_error_inv (dry : Bool) (rho : Nat → Nat)
    (provs : List (String × String)) (user : SUser) (uid : String)
    (allE : List SUserExternalId) (es : List SUserExternalId) (k : Nat)
    (st st' : RunState) (kk : RunStop)
    (h : linkLoop dry rho provs user uid allE es k st = .error (kk, st')) :
    dry = false ∧ kk = .exit1 ∧ st'.written = st.written ∧ Replayed st' := by
  induction es generalizing k st with
  | nil => cases h
  | cons e es ih =>
    simp only [linkLoop] at h
    cases hl : lookupProvider provs e.auth_provider with
    | some pu =>
      rw [hl] at h
      simp only [] at h
      cases hrec : linkLoop dry rho provs user uid allE es (k + 1)
          { st with debugLog := st.debugLog ++
            [stringifyAndRedactArr (allE.map jsonOfSUserExternalId) ++
              " => " ++ stringifyAndRedact (jsonOfMUpstreamOauthLink
                (mkMasUpstreamOauthLink rho k user uid pu e))] } with
      | ok x =>
        rw [hrec] at h
        obtain ⟨st2, rows2, k3⟩ := x
        cases h
      | error x =>
        rw [hrec] at h
        obtain ⟨kk2, stE⟩ := x
        obtain ⟨he1, he2⟩ := Prod.mk.injEq .. ▸ Except.error.inj h
        subst he1
        subst he2
        obtain ⟨a, b, c, d⟩ := ih _ _ hrec
        exact ⟨a, b, c, d⟩
    | none =>
      rw [hl] at h
      simp only [fatal, fatalState] at h
      by_cases hdry : dry = true
      · rw [if_pos hdry] at h
        obtain ⟨hfalse, _⟩ := ih _ _ h
        rw [hdry] at hfalse
        cases hfalse
      · rw [if_neg hdry] at h
        obtain ⟨he1, he2⟩ := Prod.mk.injEq .. ▸ Except.error.inj h
        subst he1
        subst he2
        refine ⟨Bool.not_eq_true dry ▸ hdry, rfl, rfl, ?_⟩
        intro w hw
        simp only [] at hw ⊢
        exact List.mem_append_right _ hw

theorem linkLoop_resolved (dry : Bool) (rho : Nat → Nat)
    (provs : List (String × String)) (user : SUser) (uid : String)
    (allE : List SUserExternalId) (es : List SUserExternalId) (k : Nat)
    (st : RunState)
    (hres : ∀ e ∈ es, (lookupProvider provs e.auth_provider).isSome = true) :
    ∃ st' rows,
      linkLoop dry rho provs user uid allE es k st =
        .ok (st', rows, k + es.length) ∧
      st'.written = st.written ∧ st'.warnings = st.warnings ∧
      st'.fatals = st.fatals ∧ st'.extractions = st.extractions ∧
      st'.warnLog = st.warnLog ∧ st'.rng = st.rng ∧
      rows.map eraseLink = es.map (fun e => (uid,
        (lookupProvider provs e.auth_provider).getD "", e.external_id,
        userCreatedAt user)) := by
  induction es generalizing k st with
  | nil =>
    exact ⟨st, [], by simp [linkLoop], rfl, rfl, rfl, rfl, rfl, rfl, by simp⟩
  | cons e es ih =>
    have he := hres e (List.mem_cons_self e es)
    obtain ⟨pu, hpu⟩ := Option.isSome_iff_exists.mp he
    have hres2 : ∀ x ∈ es, (lookupProvider provs x.auth_provider).isSome
        = true := fun x hx => hres x (List.mem_cons_of_mem _ hx)
    obtain ⟨st2, rows2, hrec, hw, hg, hf, hx2, hwl, hr, hrows⟩ :=
      ih (k + 1)
        { st with debugLog := st.debugLog ++
          [stringifyAndRedactArr (allE.map jsonOfSUserExternalId) ++
            " => " ++ stringifyAndRedact (jsonOfMUpstreamOauthLink
              (mkMasUpstreamOauthLink rho k user uid pu e))] } hres2
    refine ⟨st2, mkMasUpstreamOauthLink rho k user uid pu e :: rows2,
      ?_, hw, hg, hf, hx2, hwl, hr, ?_⟩
    · simp only [linkLoop, hpu]
      rw [hrec]
      have hksucc : k + 1 + es.length = k + (es.length + 1) := by omega
      simp [hksucc]
    · simp only [List.map_cons, hrows, List.map_map]
      rw [List.cons_eq_cons]
      refine ⟨?_, rfl⟩
      simp [eraseLink, mkMasUpstreamOauthLink, hpu]

theorem tokenLoop_rows_kinds (rho : Nat → Nat) (rts : List SRefreshToken)
    (user : SUser) (uid : String) (ts : List SAccessToken) (k : Nat)
    (st : RunState) :
    ∀ r ∈ (tokenLoop rho rts user uid ts k st).2.1, isCompatRow r = true := by
  induction ts generalizing k st with
  | nil => intro r hr; cases hr
  | cons t ts ih =>
    intro r hr
    cases hrid : t.refresh_token_id with
    | none =>
      rw [tokenLoop] at hr
      simp only [hrid, List.mem_cons] at hr
      rcases hr with h | h | h
      · rw [h]; rfl
      · rw [h]; rfl
      · exact ih _ _ _ h
    | some rid =>
      rw [tokenLoop] at hr
      simp only [hrid] at hr
      cases hrt : lookupRefreshToken rts rid with
      | some rt =>
        rw [hrt] at hr
        simp only [List.mem_cons] at hr
        rcases hr with h | h | h | h
        · rw [h]; rfl
        · rw [h]; rfl
        · rw [h]; rfl
        · exact ih _ _ _ h
      | none =>
        rw [hrt] at hr
        simp only [List.mem_cons] at hr
        rcases hr with h | h | h
        · rw [h]; rfl
        · rw [h]; rfl
        · exact ih _ _ _ h

theorem migrateUserBuild_ok_inv (ctx : RunCtx)
    (provs : List (String × String)) (user : SUser) (st st' : RunState)
    (execs : List TargetRow) (wfu : Nat)
    (h : migrateUserBuild ctx provs user st = .ok (st', execs, wfu)) :
    st'.written = st.written ∧ st.fatals ≤ st'.fatals ∧
    st'.warnings.length = st.warnings.length + wfu := by
  simp only [migrateUserBuild] at h
  split at h
  · cases h
  next st5 linkRows k3 heq =>
    obtain ⟨hw5, hg5, hf5⟩ :=
      linkLoop_ok_inv _ _ _ _ _ _ _ _ _ _ _ _ heq
    split at h
    · injection h with htr
      injection htr with hA htr2
      injection htr2 with hB hC
      subst hA
      subst hB
      subst hC
      refine ⟨hw5, hf5, ?_⟩
      show st5.warnings.length = _
      rw [hg5]
      simp
    · injection h with htr
      injection htr with hA htr2
      injection htr2 with hB hC
      subst hA
      subst hB
      subst hC
      refine ⟨?_, ?_, ?_⟩
      · show (tokenLoop _ _ _ _ _ _ _).1.written = _
        exact ((tokenLoop_state _ _ _ _ _ _ _).1).trans hw5
      · show st.fatals ≤ (tokenLoop _ _ _ _ _ _ _).1.fatals
        rw [(tokenLoop_state _ _ _ _ _ _ _).2.1]
        exact hf5
      · show (tokenLoop _ _ _ _ _ _ _).1.warnings.length = _
        rw [(tokenLoop_state _ _ _ _ _ _ _).2.2.1, tokenLoop_wfu]
        simp only [List.length_append]
        rw [show ∀ s : RunState, ∀ l, ({ s with extractions := l } :
          RunState).warnings = s.warnings from fun s l => rfl, hg5]
        simp [List.length_append]
        omega

theorem migrateUserBuild_error_inv (ctx : RunCtx)
    (provs : List (String × String)) (user : SUser) (st st' : RunState)
    (kk : RunStop)
    (h : migrateUserBuild ctx provs user st = .error (kk, st')) :
    ctx.dryRun = false ∧ kk = .exit1 ∧ st'.written = st.written ∧
    Replayed st' := by
  simp only [migrateUserBuild] at h
  split at h
  next x heq =>
    obtain ⟨kk2, stE⟩ := x
    injection h with htr
    injection htr with h1 h2
    subst h1
    subst h2
    obtain ⟨a, b, c, d⟩ := linkLoop_error_inv _ _ _ _ _ _ _ _ _ _ _ heq
    exact ⟨a, b, c, d⟩
  next st5 linkRows k3 heq =>
    split at h
    · cases h
    · cases h

theorem migrateUserCore_ok_inv (ctx : RunCtx)
    (provs : List (String × String)) (user : SUser) (st st' : RunState)
    (execs : List TargetRow) (wfu : Nat)
    (h : migrateUserCore ctx provs user st = .ok (st', execs, wfu)) :
    st'.written = st.written ∧ st.fatals ≤ st'.fatals ∧
    st'.warnings.length = st.warnings.length + wfu ∧
    (user.is_guest = 1 → ctx.dryRun = true ∧ st.fatals + 1 ≤ st'.fatals) := by
  rw [migrateUserCore] at h
  by_cases hg : user.is_guest = 1
  · rw [if_pos hg] at h
    simp only [fatal, fatalState] at h
    by_cases hdry : ctx.dryRun = true
    · rw [if_pos hdry] at h
      obtain ⟨a, b, c⟩ := migrateUserBuild_ok_inv _ _ _ _ _ _ _ h
      exact ⟨a, le_trans (Nat.le_succ _) b, c, fun _ => ⟨hdry, b⟩⟩
    · rw [if_neg hdry] at h
      cases h
  · rw [if_neg hg] at h
    obtain ⟨a, b, c⟩ := migrateUserBuild_ok_inv _ _ _ _ _ _ _ h
    exact ⟨a, b, c, fun hcontra => absurd hcontra hg⟩

theorem migrateUserCore_error_inv (ctx : RunCtx)
    (provs : List (String × String)) (user : SUser) (st st' : RunState)
    (kk : RunStop)
    (h : migrateUserCore ctx provs user st = .error (kk, st')) :
    kk = .exit1 ∧ st'.written = st.written ∧ Replayed st' ∧
    ctx.dryRun = false := by
  rw [migrateUserCore] at h
  by_cases hg : user.is_guest = 1
  · rw [if_pos hg] at h
    simp only [fatal, fatalState] at h
    by_cases hdry : ctx.dryRun = true
    · rw [if_pos hdry] at h
      obtain ⟨a, b, c, d⟩ := migrateUserBuild_error_inv _ _ _ _ _ _ h
      rw [hdry] at a
      cases a
    · rw [if_neg hdry] at h
      injection h with htr
      injection htr with h1 h2
      subst h1
      subst h2
      refine ⟨rfl, rfl, ?_, Bool.not_eq_true _ ▸ hdry⟩
      intro w hw
      exact List.mem_append_right _ hw
  · rw [if_neg hg] at h
    obtain ⟨a, b, c, d⟩ := migrateUserBuild_error_inv _ _ _ _ _ _ h
    exact ⟨b, c, d, a⟩

theorem migrateUser_dry (ctx : RunCtx) (provs : List (String × String))
    (user : SUser) (st : RunState) (hdry : ctx.dryRun = true) :
    ∃ st', migrateUser ctx provs user st = .ok st' ∧
      st'.written = st.written ∧ st.fatals ≤ st'.fatals ∧
      (user.is_guest = 1 → st.fatals + 1 ≤ st'.fatals) := by
  rw [migrateUser]
  cases hcore : migrateUserCore ctx provs user st with
  | error x =>
    obtain ⟨kk, stE⟩ := x
    obtain ⟨_, _, _, hfalse⟩ := migrateUserCore_error_inv _ _ _ _ _ _ hcore
    rw [hdry] at hfalse
    cases hfalse
  | ok y =>
    obtain ⟨st1, execs, wfu⟩ := y
    obtain ⟨hwr, hf, hwl, hguest⟩ := migrateUserCore_ok_inv _ _ _ _ _ _ _ hcore
    simp only [migrateUserCommit]
    by_cases hp : 0 < wfu
    · rw [if_pos hp, if_neg (by rw [hdry]; simp)]
      exact ⟨_, rfl, hwr, hf, fun hg => (hguest hg).2⟩
    · rw [if_neg hp, if_neg (by rw [hdry]; simp)]
      exact ⟨st1, rfl, hwr, hf, fun hg => (hguest hg).2⟩

theorem migrateUser_real_inv (ctx : RunCtx) (provs : List (String × String))
    (user : SUser) (st : RunState) (hreal : ctx.dryRun = false)
    (hw : st.warnings = []) :
    (∀ st', migrateUser ctx provs user st = .ok st' →
      st'.warnings = [] ∧ st.fatals ≤ st'.fatals) ∧
    (∀ kk st', migrateUser ctx provs user st = .error (kk, st') →
      Replayed st') := by
  constructor
  · intro st' h
    rw [migrateUser] at h
    cases hcore : migrateUserCore ctx provs user st with
    | error x =>
      rw [hcore] at h
      cases h
    | ok y =>
      obtain ⟨st1, execs, wfu⟩ := y
      rw [hcore] at h
      obtain ⟨hwr, hf, hwl, _⟩ := migrateUserCore_ok_inv _ _ _ _ _ _ _ hcore
      rw [hw] at hwl
      simp only [List.length_nil, Nat.zero_add] at hwl
      simp only [migrateUserCommit] at h
      by_cases hp : 0 < wfu
      · rw [if_pos hp, if_pos (by rw [hreal]; rfl)] at h
        simp only [fatal] at h
        rw [if_neg (by rw [hreal]; exact Bool.false_ne_true)] at h
        cases h
      · have hwfu : wfu = 0 := by omega
        have hnil : st1.warnings = [] :=
          List.length_eq_zero.mp (by rw [hwl, hwfu])
        rw [if_neg hp, if_pos (by rw [hreal]; simp)] at h
        cases hins : runInserts ctx.insertFails execs st1.written with
        | mk w2 okc =>
          rw [hins] at h
          cases okc with
          | true =>
            simp only [] at h
            injection h with h1
            rw [← h1]
            exact ⟨hnil, hf⟩
          | false =>
            simp only [] at h
            cases h
  · intro kk st' h
    rw [migrateUser] at h
    cases hcore : migrateUserCore ctx provs user st with
    | error x =>
      obtain ⟨kk2, stE⟩ := x
      rw [hcore] at h
      injection h with htr
      injection htr with h1 h2
      subst h1
      subst h2
      exact (migrateUserCore_error_inv _ _ _ _ _ _ hcore).2.2.1
    | ok y =>
      obtain ⟨st1, execs, wfu⟩ := y
      rw [hcore] at h
      obtain ⟨hwr, hf, hwl, _⟩ := migrateUserCore_ok_inv _ _ _ _ _ _ _ hcore
      rw [hw] at hwl
      simp only [List.length_nil, Nat.zero_add] at hwl
      simp only [migrateUserCommit] at h
      by_cases hp : 0 < wfu
      · rw [if_pos hp, if_pos (by rw [hreal]; rfl)] at h
        simp only [fatal] at h
        rw [if_neg (by rw [hreal]; exact Bool.false_ne_true)] at h
        injection h with htr
        injection htr with h1 h2
        subst h2
        intro w hwmem
        exact List.mem_append_right _ hwmem
      · have hwfu : wfu = 0 := by omega
        have hnil : st1.warnings = [] :=
          List.length_eq_zero.mp (by rw [hwl, hwfu])
        rw [if_neg hp, if_pos (by rw [hreal]; simp)] at h
        cases hins : runInserts ctx.insertFails execs st1.written with
        | mk w2 okc =>
          rw [hins] at h
          cases okc with
          | true =>
            simp only [] at h
            cases h
          | false =>
            simp only [] at h
            injection h with htr
            injection htr with h1 h2
            subst h2
            intro w hwmem
            rw [show ({ st1 with written := w2 } : RunState).warnings =
              st1.warnings from rfl, hnil] at hwmem
            cases hwmem

theorem usersLoop_dry (ctx : RunCtx) (provs : List (String × String))
    (users : List SUser) (st : RunState) (hdry : ctx.dryRun = true) :
    ∃ st', usersLoop ctx provs users st = .ok st' ∧
      st'.written = st.written ∧ st.fatals ≤ st'.fatals := by
  induction users generalizing st with
  | nil => exact ⟨st, rfl, rfl, le_refl _⟩
  | cons u us ih =>
    obtain ⟨st1, hu, hw, hf, _⟩ := migrateUser_dry ctx provs u st hdry
    obtain ⟨st2, hrec, hw2, hf2⟩ := ih st1
    refine ⟨st2, ?_, hw2.trans hw, le_trans hf hf2⟩
    simp only [usersLoop, hu]
    exact hrec

theorem usersLoop_real_inv (ctx : RunCtx) (provs : List (String × String))
    (users : List SUser) (hreal : ctx.dryRun = false) :
    ∀ st : RunState, st.warnings = [] →
      (∀ st', usersLoop ctx provs users st = .ok st' →
        st'.warnings = []) ∧
      (∀ kk st', usersLoop ctx provs users st = .error (kk, st') →
        Replayed st') := by
  induction users with
  | nil =>
    intro st hw
    constructor
    · intro st' h
      injection h with h1
      rw [← h1]
      exact hw
    · intro kk st' h
      cases h
  | cons u us ih =>
    intro st hw
    constructor
    · intro st' h
      simp only [usersLoop] at h
      cases hu : migrateUser ctx provs u st with
      | error x =>
        rw [hu] at h
        cases h
      | ok st1 =>
        rw [hu] at h
        have h1 := ((migrateUser_real_inv ctx provs u st hreal hw).1) st1 hu
        exact (ih st1 h1.1).1 st' h
    · intro kk st' h
      simp only [usersLoop] at h
      cases hu : migrateUser ctx provs u st with
      | error x =>
        obtain ⟨kk2, stE⟩ := x
        rw [hu] at h
        injection h with htr
        injection htr with h1 h2
        subst h2
        exact ((migrateUser_real_inv ctx provs u st hreal hw).2) kk2 stE hu
      | ok st1 =>
        rw [hu] at h
        have h1 := ((migrateUser_real_inv ctx provs u st hreal hw).1) st1 hu
        exact (ih st1 h1.1).2 kk st' h

def RunOutcome.isStopped : RunOutcome → Bool
  | .stopped _ _ => true
  | .finished _ _ => false

/-! ### Concrete scenarios used by the claim evaluations -/

/-- A plain source user with a password hash. -/
def aliceUser : SUser :=
  { name := "@alice:example.org", password_hash := some "secrethash"
    admin := 0, is_guest := 0, deactivated := 0
    creation_ts := 1700000000, appservice_id := none }

/-- Failing input of the atomicity claim: real-run, no warnings, two
derived insertions (`users` row and `user_passwords` row), with the
target store rejecting the `user_passwords` insert. -/
def atomicityCtx : RunCtx :=
  { dryRun := false, mappings := [], masProviders := []
    existingMasUsers := 0
    source := { users := [aliceUser], threepids := [], externalIds := []
                accessTokens := [], refreshTokens := [] }
    insertFails := fun r => match r with
      | TargetRow.userPasswords _ => true
      | _ => false
    rho := fun _ => 0 }

/-- Failing input of the redaction claim: one device-bound access token
whose referenced refresh token carries the secret value `sekrit123`. -/
def redactionToken : SAccessToken :=
  { id := 7, user_id := "@alice:example.org", device_id := some "DEVICE1"
    token := "acctokensecret", last_validated := some 1700000005000
    refresh_token_id := some 9 }

def redactionRefresh : SRefreshToken :=
  { id := 9, user_id := "@alice:example.org", token := "sekrit123" }

def redactionCtx : RunCtx :=
  { dryRun := false, mappings := [], masProviders := []
    existingMasUsers := 0
    source := { users := [aliceUser], threepids := [], externalIds := []
                accessTokens := [redactionToken]
                refreshTokens := [redactionRefresh] }
    insertFails := fun _ => false
    rho := fun _ => 0 }

/-- Dry-run with a non-empty target user table and an empty source. -/
def dryGateCtx : RunCtx :=
  { dryRun := true, mappings := [], masProviders := []
    existingMasUsers := 1
    source := { users := [], threepids := [], externalIds := []
                accessTokens := [], refreshTokens := [] }
    insertFails := fun _ => false
    rho := fun _ => 0 }

/-- C1 (code bug, evaluated at the failing input): the claim says that if
any derived insertion for a user fails during commit, the transaction is
rolled back so that no target row for that user is present afterward.  In
the code the `executions` closures call `mas.insert` on the base
connection pool, not on the transaction `tx` (migrate.mts lines 218, 235
versus 402-416), so each insert auto-commits as it runs: when the
`user_passwords` insert fails, the `users` row has already committed —
the run stops with the rethrown error while the user's row is still
present in the target store. -/
theorem commit_failure_leaves_user_row :
    (match migrateRun atomicityCtx with
     | RunOutcome.stopped RunStop.thrown st =>
        st.written.any (fun r => match r with
          | TargetRow.users mu => mu.username == "alice"
          | _ => false) && (st.written.length == 1)
     | _ => false) = true := by
  decide

set_option maxRecDepth 100000 in
/-- C2 (code bug, evaluated at the failing input): the claim says no code
path logs the value of a field named `token` (among others) unmasked.
The derived compat refresh token record is logged with its
`refresh_token` field holding the source `refresh_tokens.token` value
verbatim — `refresh_token` is not among the four names matched by the
redaction regex — so the secret `sekrit123` reaches the debug log in
clear, while the `access_token` field of the sibling record is redacted
as intended. -/
theorem refresh_token_secret_logged :
    ((migrateRun redactionCtx).state.debugLog.any
      (fun s => occursIn "\"refresh_token\":\"sekrit123\"".toList s.toList))
      = true ∧
    ((migrateRun redactionCtx).state.debugLog.any
      (fun s => occursIn "\"access_token\":\"redacted\"".toList s.toList))
      = true := by
  constructor
  · decide
  · decide

/-- C3 counterexample: the claim says that for every run — real-run or
dry-run — a non-empty target user table makes the run abort before any
extraction query is issued.  In dry-run mode `fatal` returns instead of
exiting, so with one pre-existing target user the `users` extraction
query is still issued against the source store and the run continues to
the summary. -/
theorem safety_gate_counterexample :
    0 < dryGateCtx.existingMasUsers ∧
    (migrateRun dryGateCtx).state.extractions = ["users"] ∧
    (migrateRun dryGateCtx).isStopped = false := by
  refine ⟨by decide, by decide, by decide⟩

theorem migrateRunTail_replayed (ctx : RunCtx)
    (provs : List (String × String)) (st0 : RunState)
    (hw : st0.warnings = []) :
    Replayed (migrateRunTail ctx provs st0).state := by
  simp only [migrateRunTail]
  split
  next k st heq =>
    by_cases hdry : ctx.dryRun = true
    · obtain ⟨st', hrec, _, _⟩ := usersLoop_dry ctx provs
        (ctx.source.users.filter (fun u => u.appservice_id == none)) _ hdry
      rw [hrec] at heq
      cases heq
    · refine (usersLoop_real_inv ctx provs
        (ctx.source.users.filter (fun u => u.appservice_id == none))
        (Bool.not_eq_true _ ▸ hdry) _ ?_).2 k st heq
      exact hw
  next st2 heq =>
    intro w hwmem
    exact List.mem_append_right _ hwmem

theorem migrateRunTail_dry (ctx : RunCtx) (provs : List (String × String))
    (st0 : RunState) (hdry : ctx.dryRun = true) :
    (migrateRunTail ctx provs st0).state.written = st0.written ∧
    (0 < st0.fatals →
      (migrateRunTail ctx provs st0).isSuccess = false) := by
  simp only [migrateRunTail]
  obtain ⟨st2, hrec, hwv, hfv⟩ := usersLoop_dry ctx provs
    (ctx.source.users.filter (fun u => u.appservice_id == none))
    { st0 with extractions := st0.extractions ++ ["users"] } hdry
  rw [hrec]
  constructor
  · exact hwv
  · intro hpos
    have h1 : 0 < st2.fatals := lt_of_lt_of_le hpos hfv
    have h2 : (st2.fatals == 0) = false := by
      simp only [beq_eq_false_iff_ne, ne_eq]
      omega
    simp only [RunOutcome.isSuccess]
    rw [show ({ st2 with warnLog := st2.warnLog ++ st2.warnings } :
      RunState).fatals = st2.fatals from rfl, h2]

/-- C3 (amended): when the target user table is non-empty, a real-mode
run stops — with zero source-store extraction queries issued and zero
target-store writes — before processing any user; a dry-run records the
whole-run fatal, performs zero target-store writes and is reported as
failed at the end, but it does not abort before extraction (see the
counterexample). -/
theorem safety_gate_amended (ctx : RunCtx)
    (hex : 0 < ctx.existingMasUsers) :
    (ctx.dryRun = false →
      (migrateRun ctx).isStopped = true ∧
      (migrateRun ctx).state.extractions = [] ∧
      (migrateRun ctx).state.written = []) ∧
    (ctx.dryRun = true →
      (migrateRun ctx).state.written = [] ∧
      (migrateRun ctx).isSuccess = false) := by
  cases hm : resolveMappingsRun ctx.masProviders [] ctx.mappings with
  | error e =>
    constructor
    · intro _
      simp [migrateRun, hm, RunOutcome.isStopped, RunOutcome.state,
        initialRunState]
    · intro _
      simp [migrateRun, hm, RunOutcome.isSuccess, RunOutcome.state,
        initialRunState]
  | ok provs =>
    constructor
    · intro hreal
      have hg : (if 0 < ctx.existingMasUsers then
            fatal ctx.dryRun (gateMsg ctx.existingMasUsers) initialRunState
          else .ok initialRunState) =
          .error (.exit1, fatalState (gateMsg ctx.existingMasUsers)
            initialRunState) := by
        rw [if_pos hex]
        simp only [fatal]
        rw [if_neg (by rw [hreal]; exact Bool.false_ne_true)]
      simp only [migrateRun, hm, hg]
      exact ⟨rfl, rfl, rfl⟩
    · intro hdry
      have hg : (if 0 < ctx.existingMasUsers then
            fatal ctx.dryRun (gateMsg ctx.existingMasUsers) initialRunState
          else .ok initialRunState) =
          .ok { fatalState (gateMsg ctx.existingMasUsers) initialRunState
                with fatals := initialRunState.fatals + 1 } := by
        rw [if_pos hex]
        simp only [fatal]
        rw [if_pos hdry]
      simp only [migrateRun, hm, hg]
      have := migrateRunTail_dry ctx provs
        { fatalState (gateMsg ctx.existingMasUsers) initialRunState
          with fatals := initialRunState.fatals + 1 } hdry
      exact ⟨this.1, this.2 (by simp [fatalState, initialRunState])⟩

/-- Real-run with a non-empty target user table and an empty source. -/
def realGateCtx : RunCtx :=
  { dryRun := false, mappings := [], masProviders := []
    existingMasUsers := 1
    source := { users := [], threepids := [], externalIds := []
                accessTokens := [], refreshTokens := [] }
    insertFails := fun _ => false
    rho := fun _ => 0 }

theorem safety_gate_amended_witness :
    (dryGateCtx.dryRun = true →
      (migrateRun dryGateCtx).state.written = [] ∧
      (migrateRun dryGateCtx).isSuccess = false) ∧
    ((migrateRun realGateCtx).isStopped = true ∧
      (migrateRun realGateCtx).state.extractions = [] ∧
      (migrateRun realGateCtx).state.written = []) :=
  ⟨(safety_gate_amended dryGateCtx (by decide)).2,
   (safety_gate_amended realGateCtx (by decide)).1 (by decide)⟩

theorem migrateRun_replayed (ctx : RunCtx) :
    Replayed (migrateRun ctx).state := by
  cases hm : resolveMappingsRun ctx.masProviders [] ctx.mappings with
  | error e =>
    simp only [migrateRun, hm, RunOutcome.state]
    intro w hwmem
    cases hwmem
  | ok provs =>
    by_cases hex : 0 < ctx.existingMasUsers
    · by_cases hdry : ctx.dryRun = true
      · have hg : (if 0 < ctx.existingMasUsers then
              fatal ctx.dryRun (gateMsg ctx.existingMasUsers) initialRunState
            else .ok initialRunState) =
            .ok { fatalState (gateMsg ctx.existingMasUsers) initialRunState
                  with fatals := initialRunState.fatals + 1 } := by
          rw [if_pos hex]
          simp only [fatal]
          rw [if_pos hdry]
        simp only [migrateRun, hm, hg]
        exact migrateRunTail_replayed ctx provs _ rfl
      · have hg : (if 0 < ctx.existingMasUsers then
              fatal ctx.dryRun (gateMsg ctx.existingMasUsers) initialRunState
            else .ok initialRunState) =
            .error (.exit1, fatalState (gateMsg ctx.existingMasUsers)
              initialRunState) := by
          rw [if_pos hex]
          simp only [fatal]
          rw [if_neg hdry]
        simp only [migrateRun, hm, hg, RunOutcome.state]
        intro w hwmem
        cases hwmem
    · have hg : (if 0 < ctx.existingMasUsers then
            fatal ctx.dryRun (gateMsg ctx.existingMasUsers) initialRunState
          else .ok initialRunState) = .ok initialRunState := by
        rw [if_neg hex]
      simp only [migrateRun, hm, hg]
      exact migrateRunTail_replayed ctx provs _ rfl

/-- C8: per-row warnings — a three-pid whose medium is not email, and an
access token referencing a refresh token that cannot be found — are
recorded against the current user without aborting that user's sibling
rows: the email loop still yields a row for every email three-pid, and
the token loop still yields the session and access-token rows for every
device-bound token; a positive per-user warning count escalates to a
whole-run fatal exactly when not in dry-run (in dry-run it is logged at
warn level and nothing is committed); and at every terminal state of a
run, every accumulated warning has been replayed to the warn-level log. -/
theorem warning_policy_spec :
    (∀ (rho : Nat → Nat) (user : SUser) (uid : String)
        (tps : List SUserThreePid) (k : Nat),
      (emailLoop rho user uid tps k).2.1 =
        (tps.filter (fun tp => !(tp.medium == "email"))).map
          (nonEmailWarnMsg user) ∧
      (emailLoop rho user uid tps k).1.map eraseEmail =
        (tps.filter (fun tp => tp.medium == "email")).map
          (fun tp => (uid, jsToLower tp.address, threePidCreatedAt tp,
            tp.validated_at))) ∧
    (∀ (rho : Nat → Nat) (rts : List SRefreshToken) (user : SUser)
        (uid : String) (ts : List SAccessToken) (k : Nat) (st : RunState),
      (tokenLoop rho rts user uid ts k st).1.warnings =
        st.warnings ++ tokenWarns user rts ts ∧
      (tokenLoop rho rts user uid ts k st).2.1.map eraseCompat =
        (ts.map (expectedCompatRows user uid rts)).flatten ∧
      (tokenLoop rho rts user uid ts k st).2.2.1 =
        (tokenWarns user rts ts).length) ∧
    (∀ (ctx : RunCtx) (user : SUser) (execs : List TargetRow) (wfu : Nat)
        (st : RunState), 0 < wfu →
      (ctx.dryRun = false →
        migrateUserCommit ctx user execs wfu st =
          .error (.exit1, fatalState (warnSummaryMsg user wfu) st)) ∧
      (ctx.dryRun = true →
        migrateUserCommit ctx user execs wfu st =
          .ok { st with warnLog := st.warnLog ++
            [warnSummaryMsg user wfu] })) ∧
    (∀ ctx : RunCtx, Replayed (migrateRun ctx).state) := by
  refine ⟨?_, ?_, ?_, migrateRun_replayed⟩
  · intro rho user uid tps k
    exact ⟨emailLoop_warns rho user uid tps k,
      emailLoop_rows rho user uid tps k⟩
  · intro rho rts user uid ts k st
    exact ⟨(tokenLoop_state rho rts user uid ts k st).2.2.1,
      tokenLoop_rows rho rts user uid ts k st,
      tokenLoop_wfu rho rts user uid ts k st⟩
  · intro ctx user execs wfu st hp
    constructor
    · intro hreal
      simp only [migrateUserCommit]
      rw [if_pos hp, if_pos (by rw [hreal]; rfl)]
      simp only [fatal]
      rw [if_neg (by rw [hreal]; exact Bool.false_ne_true)]
    · intro hdry
      simp only [migrateUserCommit]
      rw [if_pos hp, if_neg (by rw [hdry]; simp)]

theorem warning_policy_spec_witness :
    migrateUserCommit dryGateCtx aliceUser [] 1 initialRunState =
      .ok { initialRunState with warnLog := initialRunState.warnLog ++
            [warnSummaryMsg aliceUser 1] } :=
  ((warning_policy_spec.2.2.1 dryGateCtx aliceUser [] 1 initialRunState
      (by decide)).2) rfl

/-- C7: a source user with the guest flag set never produces target rows
and causes a whole-run fatal: in real-run mode `migrateUser` exits the
process at the guest check before any insert can run, leaving the
written-rows set unchanged; in dry-run mode the fatal counter is
incremented (so the run is reported failed) and, dry-run never writing,
the written-rows set is again unchanged. -/
theorem guest_user_spec (ctx : RunCtx) (provs : List (String × String))
    (user : SUser) (st : RunState) (hg : user.is_guest = 1) :
    (ctx.dryRun = false →
      migrateUser ctx provs user st =
        .error (.exit1, fatalState (guestMsg user) st) ∧
      (fatalState (guestMsg user) st).written = st.written) ∧
    (ctx.dryRun = true →
      ∃ st', migrateUser ctx provs user st = .ok st' ∧
        st'.written = st.written ∧ st.fatals + 1 ≤ st'.fatals) := by
  constructor
  · intro hreal
    refine ⟨?_, rfl⟩
    simp only [migrateUser, migrateUserCore, if_pos hg, fatal]
    rw [if_neg (by rw [hreal]; exact Bool.false_ne_true)]
  · intro hdry
    obtain ⟨st', h, hwv, _, hguest⟩ := migrateUser_dry ctx provs user st hdry
    exact ⟨st', h, hwv, hguest hg⟩

/-- A guest user. -/
def guestUser : SUser :=
  { name := "@guest:example.org", password_hash := none
    admin := 0, is_guest := 1, deactivated := 0
    creation_ts := 1700000000, appservice_id := none }

theorem guest_user_spec_witness :
    migrateUser realGateCtx [] guestUser initialRunState =
      .error (.exit1, fatalState (guestMsg guestUser) initialRunState) ∧
    (fatalState (guestMsg guestUser) initialRunState).written =
      initialRunState.written :=
  (guest_user_spec realGateCtx [] guestUser initialRunState (by decide)).1 rfl

/-- The insertion list `migrateUserCore` builds, `[]` when it stops. -/
def coreExecs (ctx : RunCtx) (provs : List (String × String))
    (user : SUser) (st : RunState) : List TargetRow :=
  match migrateUserCore ctx provs user st with
  | .ok (_, execs, _) => execs
  | .error _ => []

/-- Whether `migrateUserCore` ran to the disposition step. -/
def coreOk (ctx : RunCtx) (provs : List (String × String))
    (user : SUser) (st : RunState) : Bool :=
  match migrateUserCore ctx provs user st with
  | .ok _ => true
  | .error _ => false

theorem linkLoop_error_unresolved (dry : Bool) (rho : Nat → Nat)
    (provs : List (String × String)) (user : SUser) (uid : String)
    (allE : List SUserExternalId) (es : List SUserExternalId) (k : Nat)
    (st st' : RunState) (kk : RunStop)
    (h : linkLoop dry rho provs user uid allE es k st = .error (kk, st')) :
    ∃ e ∈ es, lookupProvider provs e.auth_provider = none := by
  induction es generalizing k st with
  | nil => cases h
  | cons e es ih =>
    simp only [linkLoop] at h
    cases hl : lookupProvider provs e.auth_provider with
    | some pu =>
      rw [hl] at h
      simp only [] at h
      split at h
      next heq =>
        cases h
      next x heq =>
        obtain ⟨kkx, stx⟩ := x
        injection h with htr
        injection htr with h1 h2
        subst h1
        subst h2
        obtain ⟨e2, hmem, hnone⟩ := ih _ _ heq
        exact ⟨e2, List.mem_cons_of_mem _ hmem, hnone⟩
    | none => exact ⟨e, List.mem_cons_self _ _, hl⟩

theorem migrateUserBuild_error_unresolved (ctx : RunCtx)
    (provs : List (String × String)) (user : SUser) (st st' : RunState)
    (kk : RunStop)
    (h : migrateUserBuild ctx provs user st = .error (kk, st')) :
    ∃ e ∈ ctx.source.externalIds.filter (fun x => x.user_id == user.name),
      lookupProvider provs e.auth_provider = none := by
  simp only [migrateUserBuild] at h
  split at h
  next x heq =>
    obtain ⟨kkx, stx⟩ := x
    injection h with htr
    injection htr with h1 h2
    subst h1
    subst h2
    exact linkLoop_error_unresolved _ _ _ _ _ _ _ _ _ _ _ heq
  next st5 linkRows k3 heq =>
    split at h
    · cases h
    · cases h

theorem filterMap_emailRowOf_userEmails (l : List MUserEmail) :
    (l.map TargetRow.userEmails).filterMap emailRowOf = l := by
  induction l with
  | nil => rfl
  | cons r rs ih => simp [emailRowOf, ih]

theorem filterMap_emailRowOf_links (l : List MUpstreamOauthLink) :
    (l.map TargetRow.upstreamOauthLinks).filterMap emailRowOf = [] := by
  induction l with
  | nil => rfl
  | cons r rs ih => simp [emailRowOf, ih]

theorem filterMap_linkRowOf_links (l : List MUpstreamOauthLink) :
    (l.map TargetRow.upstreamOauthLinks).filterMap linkRowOf = l := by
  induction l with
  | nil => rfl
  | cons r rs ih => simp [linkRowOf, ih]

theorem filterMap_linkRowOf_userEmails (l : List MUserEmail) :
    (l.map TargetRow.userEmails).filterMap linkRowOf = [] := by
  induction l with
  | nil => rfl
  | cons r rs ih => simp [linkRowOf, ih]

theorem noncompat_userEmails (l : List MUserEmail) :
    (l.map TargetRow.userEmails).all (fun r => !(isCompatRow r)) = true := by
  induction l with
  | nil => rfl
  | cons r rs ih => simp [isCompatRow, ih]

theorem noncompat_links (l : List MUpstreamOauthLink) :
    (l.map TargetRow.upstreamOauthLinks).all (fun r => !(isCompatRow r))
      = true := by
  induction l with
  | nil => rfl
  | cons r rs ih => simp [isCompatRow, ih]

theorem filter_compat_userEmails (l : List MUserEmail) :
    (l.map TargetRow.userEmails).filter isCompatRow = [] := by
  induction l with
  | nil => rfl
  | cons r rs ih => simp [isCompatRow, ih]

theorem filter_compat_links (l : List MUpstreamOauthLink) :
    (l.map TargetRow.upstreamOauthLinks).filter isCompatRow = [] := by
  induction l with
  | nil => rfl
  | cons r rs ih => simp [isCompatRow, ih]

theorem filterMap_emailRowOf_compat (rows : List TargetRow)
    (hk : ∀ r ∈ rows, isCompatRow r = true) :
    rows.filterMap emailRowOf = [] := by
  rw [List.filterMap_eq_nil_iff]
  intro r hr
  have := hk r hr
  cases r <;> simp_all [emailRowOf, isCompatRow]

theorem filterMap_linkRowOf_compat (rows : List TargetRow)
    (hk : ∀ r ∈ rows, isCompatRow r = true) :
    rows.filterMap linkRowOf = [] := by
  rw [List.filterMap_eq_nil_iff]
  intro r hr
  have := hk r hr
  cases r <;> simp_all [linkRowOf, isCompatRow]

theorem filter_compat_self (rows : List TargetRow)
    (hk : ∀ r ∈ rows, isCompatRow r = true) :
    rows.filter isCompatRow = rows :=
  List.filter_eq_self.mpr hk

theorem filterMap_comp_email_userEmails (l : List MUserEmail) :
    List.filterMap (emailRowOf ∘ TargetRow.userEmails) l = l := by
  induction l with
  | nil => rfl
  | cons r rs ih => simp [emailRowOf, ih, Function.comp]

theorem filterMap_comp_email_links (l : List MUpstreamOauthLink) :
    List.filterMap (emailRowOf ∘ TargetRow.upstreamOauthLinks) l = [] := by
  induction l with
  | nil => rfl
  | cons r rs ih => simp [emailRowOf, ih, Function.comp]

theorem filterMap_comp_link_links (l : List MUpstreamOauthLink) :
    List.filterMap (linkRowOf ∘ TargetRow.upstreamOauthLinks) l = l := by
  induction l with
  | nil => rfl
  | cons r rs ih => simp [linkRowOf, ih, Function.comp]

theorem filterMap_comp_link_userEmails (l : List MUserEmail) :
    List.filterMap (linkRowOf ∘ TargetRow.userEmails) l = [] := by
  induction l with
  | nil => rfl
  | cons r rs ih => simp [linkRowOf, ih, Function.comp]

theorem migrateUserBuild_execs_spec (ctx : RunCtx)
    (provs : List (String × String)) (user : SUser) (st st1 : RunState)
    (execs : List TargetRow) (wfu : Nat)
    (hres : ∀ e ∈ ctx.source.externalIds.filter
        (fun x => x.user_id == user.name),
      (lookupProvider provs e.auth_provider).isSome = true)
    (h : migrateUserBuild ctx provs user st = .ok (st1, execs, wfu)) :
    execs.head? = some (TargetRow.users (mkMasUser ctx.rho st.rng user)) ∧
    (execs.filterMap emailRowOf).map eraseEmail =
      ((ctx.source.threepids.filter
          (fun tp => tp.user_id == user.name)).filter
        (fun tp => tp.medium == "email")).map
        (fun tp => ((mkMasUser ctx.rho st.rng user).user_id,
          jsToLower tp.address, threePidCreatedAt tp, tp.validated_at)) ∧
    (execs.filterMap linkRowOf).map eraseLink =
      (ctx.source.externalIds.filter
          (fun x => x.user_id == user.name)).map
        (fun e => ((mkMasUser ctx.rho st.rng user).user_id,
          (lookupProvider provs e.auth_provider).getD "", e.external_id,
          userCreatedAt user)) ∧
    (user.deactivated = 1 →
      execs.all (fun r => !(isCompatRow r)) = true) ∧
    (user.deactivated ≠ 1 →
      (execs.filter isCompatRow).map eraseCompat =
        ((ctx.source.accessTokens.filter
            (fun t => t.user_id == user.name && t.device_id.isSome)).map
          (expectedCompatRows user (mkMasUser ctx.rho st.rng user).user_id
            ctx.source.refreshTokens)).flatten) := by
  simp only [migrateUserBuild] at h
  split at h
  next x heq =>
    obtain ⟨kkx, stx⟩ := x
    obtain ⟨e, hmem, hnone⟩ :=
      linkLoop_error_unresolved _ _ _ _ _ _ _ _ _ _ _ heq
    have hcontra := hres e hmem
    rw [hnone] at hcontra
    cases hcontra
  next st5 linkRows k3 heq =>
    obtain ⟨st5', rows', hrec, hwv, hgv, hfv, hxv, hwlv, hrv, hrows⟩ :=
      linkLoop_resolved _ _ _ _ _ _ _ _ _ hres
    rw [hrec] at heq
    injection heq with htr
    injection htr with h1 htr2
    injection htr2 with h2 h3
    subst h1
    subst h2
    split at h
    next hd =>
      injection h with htr
      injection htr with hA htr2
      injection htr2 with hB hC
      subst hB
      refine ⟨rfl, ?_, ?_, fun _ => ?_, fun hnd => absurd hd hnd⟩
      · by_cases hpw : jsTruthyStr user.password_hash = true <;>
          simp [hpw, List.filterMap_cons, List.filterMap_append, emailRowOf,
            filterMap_emailRowOf_userEmails, filterMap_emailRowOf_links,
            filterMap_comp_email_userEmails, filterMap_comp_email_links,
            emailLoop_rows]
      · by_cases hpw : jsTruthyStr user.password_hash = true <;>
          simp [hpw, List.filterMap_cons, List.filterMap_append, linkRowOf,
            filterMap_linkRowOf_userEmails, filterMap_linkRowOf_links,
            filterMap_comp_link_userEmails, filterMap_comp_link_links, hrows]
      · by_cases hpw : jsTruthyStr user.password_hash = true <;>
          simp [hpw, List.all_cons, List.all_append, isCompatRow,
            noncompat_userEmails, noncompat_links]
    next hd =>
      injection h with htr
      injection htr with hA htr2
      injection htr2 with hB hC
      subst hB
      refine ⟨rfl, ?_, ?_, fun hdd => absurd hdd hd, fun _ => ?_⟩
      · by_cases hpw : jsTruthyStr user.password_hash = true <;>
          simp [hpw, List.filterMap_cons, List.filterMap_append, emailRowOf,
            filterMap_emailRowOf_userEmails, filterMap_emailRowOf_links,
            filterMap_comp_email_userEmails, filterMap_comp_email_links,
            emailLoop_rows,
            filterMap_emailRowOf_compat _ (tokenLoop_rows_kinds _ _ _ _ _ _ _)]
      · by_cases hpw : jsTruthyStr user.password_hash = true <;>
          simp [hpw, List.filterMap_cons, List.filterMap_append, linkRowOf,
            filterMap_linkRowOf_userEmails, filterMap_linkRowOf_links,
            filterMap_comp_link_userEmails, filterMap_comp_link_links, hrows,
            filterMap_linkRowOf_compat _ (tokenLoop_rows_kinds _ _ _ _ _ _ _)]
      · by_cases hpw : jsTruthyStr user.password_hash = true <;>
          simp [hpw, List.filter_cons, List.filter_append, isCompatRow,
            filter_compat_userEmails, filter_compat_links,
            filter_compat_self _ (tokenLoop_rows_kinds _ _ _ _ _ _ _),
            tokenLoop_rows]

/-- C6: for a deactivated (non-guest) source user whose upstream links
all resolve, the pipeline still runs: the produced target user row has
`locked_at` equal to the user's creation time (the model carries no
clock; the value is derived from `creation_ts`, not from "now"), the
user's email rows and upstream link rows are still built, and the
insertion list contains no compat session, compat access token or compat
refresh token row. -/
theorem deactivated_user_spec (ctx : RunCtx)
    (provs : List (String × String)) (user : SUser) (st : RunState)
    (hg : user.is_guest ≠ 1) (hd : user.deactivated = 1)
    (hres : ∀ e ∈ ctx.source.externalIds.filter
        (fun x => x.user_id == user.name),
      (lookupProvider provs e.auth_provider).isSome = true) :
    coreOk ctx provs user st = true ∧
    (coreExecs ctx provs user st).head? =
      some (TargetRow.users (mkMasUser ctx.rho st.rng user)) ∧
    (mkMasUser ctx.rho st.rng user).locked_at =
      some (userCreatedAt user) ∧
    ((coreExecs ctx provs user st).filterMap emailRowOf).map eraseEmail =
      ((ctx.source.threepids.filter
          (fun tp => tp.user_id == user.name)).filter
        (fun tp => tp.medium == "email")).map
        (fun tp => ((mkMasUser ctx.rho st.rng user).user_id,
          jsToLower tp.address, threePidCreatedAt tp, tp.validated_at)) ∧
    ((coreExecs ctx provs user st).filterMap linkRowOf).map eraseLink =
      (ctx.source.externalIds.filter
          (fun x => x.user_id == user.name)).map
        (fun e => ((mkMasUser ctx.rho st.rng user).user_id,
          (lookupProvider provs e.auth_provider).getD "", e.external_id,
          userCreatedAt user)) ∧
    (coreExecs ctx provs user st).all (fun r => !(isCompatRow r)) = true := by
  have hcore : migrateUserCore ctx provs user st =
      migrateUserBuild ctx provs user st := by
    simp only [migrateUserCore, if_neg hg]
  cases hb : migrateUserBuild ctx provs user st with
  | error x =>
    obtain ⟨kk, stE⟩ := x
    obtain ⟨e, hmem, hnone⟩ :=
      migrateUserBuild_error_unresolved _ _ _ _ _ _ hb
    have hcontra := hres e hmem
    rw [hnone] at hcontra
    cases hcontra
  | ok y =>
    obtain ⟨st1, execs, wfu⟩ := y
    obtain ⟨hhead, hemails, hlinks, hdeact, _⟩ :=
      migrateUserBuild_execs_spec _ _ _ _ _ _ _ hres hb
    have hce : coreExecs ctx provs user st = execs := by
      simp only [coreExecs, hcore, hb]
    have hco : coreOk ctx provs user st = true := by
      simp only [coreOk, hcore, hb]
    refine ⟨hco, ?_, ?_, ?_, ?_, ?_⟩
    · rw [hce]
      exact hhead
    · simp [mkMasUser, hd]
    · rw [hce]
      exact hemails
    · rw [hce]
      exact hlinks
    · rw [hce]
      exact hdeact hd

/-- A deactivated user with one email three-pid and one device-bound
access token. -/
def deactUser : SUser :=
  { name := "@dora:example.org", password_hash := some "dorahash"
    admin := 0, is_guest := 0, deactivated := 1
    creation_ts := 1700000100, appservice_id := none }

def deactCtx : RunCtx :=
  { dryRun := true, mappings := [], masProviders := []
    existingMasUsers := 0
    source := { users := [deactUser]
                threepids := [{ user_id := "@dora:example.org"
                                medium := "email"
                                address := "Dora@Example.ORG"
                                validated_at := some 1700000200000
                                added_at := 1700000150000 }]
                externalIds := []
                accessTokens := [{ id := 11
                                   user_id := "@dora:example.org"
                                   device_id := some "DDEV"
                                   token := "doratoken"
                                   last_validated := none
                                   refresh_token_id := none }]
                refreshTokens := [] }
    insertFails := fun _ => false
    rho := fun _ => 0 }

theorem deactivated_user_spec_witness :
    coreOk deactCtx [] deactUser initialRunState = true ∧
    (coreExecs deactCtx [] deactUser initialRunState).all
      (fun r => !(isCompatRow r)) = true :=
  ⟨(deactivated_user_spec deactCtx [] deactUser initialRunState
      (by decide) (by decide) (by decide)).1,
   (deactivated_user_spec deactCtx [] deactUser initialRunState
      (by decide) (by decide) (by decide)).2.2.2.2.2⟩

/-- C10: the two timestamp unit conventions.  The user row's created-at
and identifier seed use `creation_ts * 1000` (epoch seconds scaled to
milliseconds), while a three-pid's `added_at`/`validated_at` and an
access token's `last_validated` are epoch milliseconds used without
scaling: each produced email row carries `(added_at, validated_at)`
unscaled, and each produced compat row is seeded at `last_validated`
when present, falling back to the user's scaled creation time. -/
theorem timestamp_seed_units (ctx : RunCtx)
    (provs : List (String × String)) (user : SUser) (st : RunState)
    (hg : user.is_guest ≠ 1)
    (hres : ∀ e ∈ ctx.source.externalIds.filter
        (fun x => x.user_id == user.name),
      (lookupProvider provs e.auth_provider).isSome = true) :
    coreOk ctx provs user st = true ∧
    (coreExecs ctx provs user st).head? =
      some (TargetRow.users (mkMasUser ctx.rho st.rng user)) ∧
    (mkMasUser ctx.rho st.rng user).created_at =
      user.creation_ts * 1000 ∧
    (mkMasUser ctx.rho st.rng user).user_id =
      makeUuid ctx.rho st.rng (user.creation_ts * 1000) ∧
    ((coreExecs ctx provs user st).filterMap emailRowOf).map
        (fun r => (r.created_at, r.confirmed_at)) =
      ((ctx.source.threepids.filter
          (fun tp => tp.user_id == user.name)).filter
        (fun tp => tp.medium == "email")).map
        (fun tp => (tp.added_at, tp.validated_at)) ∧
    (user.deactivated ≠ 1 →
      ((coreExecs ctx provs user st).filter isCompatRow).map eraseCompat =
        ((ctx.source.accessTokens.filter
            (fun t => t.user_id == user.name && t.device_id.isSome)).map
          (expectedCompatRows user (mkMasUser ctx.rho st.rng user).user_id
            ctx.source.refreshTokens)).flatten) ∧
    (∀ (t : SAccessToken) (v : Nat), t.last_validated = some v →
      tokenCreatedAt user t = v) ∧
    (∀ t : SAccessToken, t.last_validated = none →
      tokenCreatedAt user t = user.creation_ts * 1000) := by
  have hcore : migrateUserCore ctx provs user st =
      migrateUserBuild ctx provs user st := by
    simp only [migrateUserCore, if_neg hg]
  cases hb : migrateUserBuild ctx provs user st with
  | error x =>
    obtain ⟨kk, stE⟩ := x
    obtain ⟨e, hmem, hnone⟩ :=
      migrateUserBuild_error_unresolved _ _ _ _ _ _ hb
    have hcontra := hres e hmem
    rw [hnone] at hcontra
    cases hcontra
  | ok y =>
    obtain ⟨st1, execs, wfu⟩ := y
    obtain ⟨hhead, hemails, _, _, hact⟩ :=
      migrateUserBuild_execs_spec _ _ _ _ _ _ _ hres hb
    have hce : coreExecs ctx provs user st = execs := by
      simp only [coreExecs, hcore, hb]
    have hco : coreOk ctx provs user st = true := by
      simp only [coreOk, hcore, hb]
    refine ⟨hco, ?_, rfl, rfl, ?_, ?_, ?_, ?_⟩
    · rw [hce]
      exact hhead
    · rw [hce]
      have hmapped := congrArg
        (List.map (fun x : String × String × Nat × Option Nat =>
          (x.2.2.1, x.2.2.2))) hemails
      simp only [List.map_map] at hmapped
      calc (execs.filterMap emailRowOf).map
            (fun r => (r.created_at, r.confirmed_at))
          = (execs.filterMap emailRowOf).map
            ((fun x : String × String × Nat × Option Nat =>
              (x.2.2.1, x.2.2.2)) ∘ eraseEmail) := by
            apply List.map_congr_left
            intro r _
            rfl
        _ = _ := by
            rw [hmapped]
            apply List.map_congr_left
            intro tp _
            rfl
    · intro hnd
      rw [hce]
      exact hact hnd
    · intro t v hv
      simp [tokenCreatedAt, hv]
    · intro t hv
      simp [tokenCreatedAt, hv, userCreatedAt]

theorem timestamp_seed_units_witness :
    (mkMasUser deactCtx.rho 0 aliceUser).created_at =
      aliceUser.creation_ts * 1000 ∧
    tokenCreatedAt aliceUser redactionToken = 1700000005000 :=
  ⟨(timestamp_seed_units deactCtx [] aliceUser initialRunState
      (by decide) (by decide)).2.2.1,
   (timestamp_seed_units deactCtx [] aliceUser initialRunState
      (by decide) (by decide)).2.2.2.2.2.2.1 redactionToken 1700000005000
      (by decide)⟩
